import Mathlib

/-!
kishiClicker: the scheduling core of `src/main.cpp`

A shallow embedding of `ClickerConfig`, `StochasticTimer`, `ClickerEngine::Start`,
`ClickerEngine::Stop` and `ClickerEngine::Worker`, followed by the properties
established about them.

Conventions of the embedding:

* `int64_t` and `int` values are `Int`s; every arithmetic operation of the source
  that can leave its width is followed by the wrap-around reduction `wrap64` or
  `wrap32`.
* `double` values are elements of an arbitrary linearly ordered field with a floor
  function (`ℚ` when a definition is evaluated, `ℝ` for the general statements); the
  field gives their order, `std::round` and the conversion from `int`. The sums and
  products the source computes on them are not the field operations but the rounded
  operations of `DoubleArith`, about which nothing is assumed; on `ℚ` they are the
  IEEE 754 binary64 operations (`toDouble`). Infinities and NaN are not modelled: the
  samples of a normal distribution are finite.
* `std::abs` of the most negative `int` is undefined; `ClickerConfig.ClickerConfig` wraps
  there, and `Constructs` states what the language guarantees: nothing at that input.
* the samples of `dist(gen)` are read from an arbitrary stream `Nat → α`; the
  generator state is the position in that stream.
* instants of `std::chrono::steady_clock` are `Int`s counted in milliseconds.
-/

set_option linter.dupNamespace false

namespace KishiClicker

/-! ## Machine integers -/

/-- Wrap-around (twos-complement) reduction of an integer to the range of `int`, 32 bits. -/
def wrap32 (x : Int) : Int := (x + 2147483648) % 4294967296 - 2147483648

/-- Wrap-around (twos-complement) reduction of an integer to the range of `int64_t`. -/
def wrap64 (x : Int) : Int :=
  (x + 9223372036854775808) % 18446744073709551616 - 9223372036854775808

/-- The function `std::clamp(v, lo, hi)`, that is `(v < lo) ? lo : (hi < v) ? hi : v`. -/
def clamp {β : Type} [LT β] [DecidableRel (fun a b : β => a < b)] (v lo hi : β) : β :=
  if v < lo then lo else if hi < v then hi else v

/-- The function `std::abs(int)`: the negation of a negative argument is taken in 32 bits, so the
most negative `int` is returned unchanged. -/
def abs32 (x : Int) : Int := wrap32 (if x < 0 then -x else x)

/-! ## `ClickerConfig` (main.cpp, lines 25-48) -/

/-- The fields of `struct ClickerConfig`. -/
structure ClickerConfig where
  baseIntervalMs : Int
  randomOffsetMs : Int
  useRandom : Bool
  buttonIndex : Int
  typeIndex : Int
  deriving DecidableEq, Repr

/-- The value `baseIntervalMs` holds after lines 33-39 of the constructor. -/
def baseOf (h m s ms : Int) : Int :=
  let h := clamp h 0 24
  let m := clamp m 0 59
  let s := clamp s 0 59
  let ms := clamp ms 0 999
  let base := wrap64 (wrap64 (wrap64 (wrap64 (h * 3600000) + wrap64 (m * 60000))
    + wrap64 (s * 1000)) + ms)
  if base ≤ 0 then 1 else base

/-- The value `randomOffsetMs` holds after lines 41-42 of the constructor. -/
def offsetOf (base offset : Int) : Int :=
  let r := max 0 (abs32 offset)
  if r ≥ base then wrap32 (wrap64 (base - 1)) else r

/-- The constructor `ClickerConfig::ClickerConfig(h, m, s, ms, offset, random, btn, type)`. -/
def ClickerConfig.ClickerConfig (h m s ms offset : Int) (random : Bool) (btn type : Int) :
    ClickerConfig :=
  let baseIntervalMs := baseOf h m s ms
  let randomOffsetMs := offsetOf baseIntervalMs offset
  { baseIntervalMs := baseIntervalMs
    randomOffsetMs := randomOffsetMs
    useRandom := random && decide (randomOffsetMs > 0)
    buttonIndex := clamp btn 0 2
    typeIndex := clamp type 0 2 }

/-- Whether `std::abs(offset)` at line 41 has defined behaviour: `offset` is an `int` whose
absolute value is an `int` too, which excludes only the most negative `int`. -/
def absDefined (offset : Int) : Bool :=
  decide (-2147483648 < offset ∧ offset < 2147483648)

/-- The objects the constructor may leave behind for the given arguments. Where line 41 has
defined behaviour this is the one value computed by `ClickerConfig.ClickerConfig`. Where
`std::abs` is undefined the language puts no requirement on the rest of the constructor (a
compiler may take the result of `std::abs` to be non-negative and drop the `std::max(0, ...)`
guard and the test `randomOffsetMs > 0`), so every object is possible. -/
def Constructs (h m s ms offset : Int) (random : Bool) (btn type : Int) (c : ClickerConfig) :
    Prop :=
  absDefined offset = true → c = ClickerConfig.ClickerConfig h m s ms offset random btn type

/-- An object the constructor may leave behind for `h = m = s = 0`, `ms = 100`,
`offset = -2147483648`, `random = true`: the offset is stored as it is, with `useRandom` set. -/
def overflowConfig : ClickerConfig :=
  { baseIntervalMs := 100, randomOffsetMs := -2147483648, useRandom := true,
    buttonIndex := 0, typeIndex := 0 }

/-! ## `StochasticTimer` (main.cpp, lines 81-110) -/

/-- The random source of a timer: `samples k` is the value the `k`-th evaluation of
`dist(gen)` returns and `pos` counts the evaluations made so far. It stands for the
joint state of `gen` and `dist`. -/
structure Gen (α : Type) where
  samples : Nat → α
  pos : Nat

/-- One evaluation of `dist(gen)`: the sample and the advanced source. -/
def Gen.draw {α : Type} (g : Gen α) : α × Gen α :=
  (g.samples g.pos, { g with pos := g.pos + 1 })

/-- The data members of `class StochasticTimer`. -/
structure StochasticTimer (α : Type) where
  baseIntervalMs : Int
  randomOffsetMs : Int
  gen : Gen α
  drift : α

/-- Double-precision arithmetic on the values of `double`: `fadd x y` and `fmul x y` are the
results of `x + y` and `x * y` as the machine computes them, that is rounded to a `double`;
a literal operand such as `0.8` stands for the `double` it denotes. Nothing is assumed about
the two operations, so they need not be the exact sum and product. Comparison of values,
conversion of an `int` and `std::round` are exact on `double`s and are taken from the
ordered field. -/
class DoubleArith (α : Type) where
  fadd : α → α → α
  fmul : α → α → α

/-- The integer nearest to `m`, halfway cases to the even neighbour. -/
def roundHalfEven (m : ℚ) : Int :=
  if m - ⌊m⌋ < 1 / 2 then ⌊m⌋
  else if 1 / 2 < m - ⌊m⌋ then ⌊m⌋ + 1
  else if ⌊m⌋ % 2 = 0 then ⌊m⌋ else ⌊m⌋ + 1

/-- The `double` (IEEE 754 binary64) nearest to the rational `q`: round to nearest, ties to
even, with a 53-bit significand and gradual underflow below `2 ^ (-1022)`. Overflow to
infinity is not modelled: `q` is taken to be smaller than `2 ^ 1024` in magnitude. -/
def toDouble (q : ℚ) : ℚ :=
  if q = 0 then 0
  else
    let ulp : ℚ := 2 ^ (max (Int.log 2 |q| - 52) (-1074))
    (roundHalfEven (q / ulp) : ℚ) * ulp

/-- Double-precision arithmetic on `ℚ`: the operands are taken to the `double` they denote
(which leaves a `double` as it is) and the exact sum or product is rounded to a `double`. -/
instance binary64 : DoubleArith ℚ where
  fadd := fun x y => toDouble (toDouble x + toDouble y)
  fmul := fun x y => toDouble (toDouble x * toDouble y)

/-- The function `std::round`: the nearest integer, halfway cases away from zero. -/
def stdRound {α : Type} [LinearOrderedField α] [FloorRing α] (x : α) : Int :=
  if 0 ≤ x then ⌊x + 1 / 2⌋ else ⌈x - 1 / 2⌉

/-- The method `StochasticTimer::NextDelay()`: the returned delay and the timer after the call. -/
def StochasticTimer.NextDelay {α : Type} [LinearOrderedField α] [FloorRing α] [DoubleArith α]
    (t : StochasticTimer α) : Int × StochasticTimer α :=
  if t.randomOffsetMs ≤ 0 then (t.baseIntervalMs, t)
  else
    let step := t.gen.draw.1
    let gen := t.gen.draw.2
    let drift := DoubleArith.fadd (DoubleArith.fmul 0.8 t.drift) (DoubleArith.fmul 0.2 step)
    let noise := DoubleArith.fmul gen.draw.1 0.5
    let gen := gen.draw.2
    let finalOffset : α :=
      clamp (DoubleArith.fadd drift noise) (((-t.randomOffsetMs : Int) : α))
        ((t.randomOffsetMs : Int) : α)
    let result := wrap64 (t.baseIntervalMs + wrap64 (stdRound finalOffset))
    (max 1 result, { t with gen := gen, drift := drift })

/-- The constructor `StochasticTimer(base, offset)`; `samples` is the stream the freshly
seeded generator will produce. -/
def StochasticTimer.StochasticTimer {α : Type} [Zero α] (base offset : Int)
    (samples : Nat → α) : StochasticTimer α :=
  { baseIntervalMs := base, randomOffsetMs := offset, gen := { samples := samples, pos := 0 },
    drift := 0 }

/-- The timer after `k` successive calls of `NextDelay`. -/
def timerAfter {α : Type} [LinearOrderedField α] [FloorRing α] [DoubleArith α]
    (t : StochasticTimer α) :
    Nat → StochasticTimer α
  | 0 => t
  | k + 1 => (timerAfter t k).NextDelay.2

/-- The value returned by call number `k` (counted from 0) of `NextDelay`. -/
def delaySeq {α : Type} [LinearOrderedField α] [FloorRing α] [DoubleArith α] (t : StochasticTimer α)
    (k : Nat) : Int :=
  (timerAfter t k).NextDelay.1

/-! ## `ClickerEngine` control plane (main.cpp, lines 136-153)

`Start` and `Stop` both run under `mtxConfig`, so calls of the control plane are
serialised and each is one transition of the control state. -/

/-- Control state of a `ClickerEngine`: the `running` flag, the configurations of the
worker threads constructed so far (latest first), the number of `request_stop()` calls
made by `Stop`, and the number of `cv.notify_all()` calls made by `Stop`. -/
structure EngineState where
  running : Bool
  spawned : List ClickerConfig
  stopSignals : Nat
  notifies : Nat
  deriving DecidableEq, Repr

/-- The constructor `ClickerEngine() : running(false)`. -/
def ClickerEngine.init : EngineState :=
  { running := false, spawned := [], stopSignals := 0, notifies := 0 }

/-- The method `ClickerEngine::Start(config)`. -/
def ClickerEngine.Start (config : ClickerConfig) (e : EngineState) : EngineState :=
  if e.running then e
  else { e with running := true, spawned := config :: e.spawned }

/-- The method `ClickerEngine::Stop()`. -/
def ClickerEngine.Stop (e : EngineState) : EngineState :=
  if !e.running then e
  else { e with stopSignals := e.stopSignals + 1, notifies := e.notifies + 1, running := false }

/-- The method `ClickerEngine::IsRunning()`. -/
def ClickerEngine.IsRunning (e : EngineState) : Bool := e.running

/-! ## `ClickerEngine::Worker` (main.cpp, lines 156-186)

The worker is a transition system over its control points. Each transition consumes one
observation of the environment: the value that `stoken.stop_requested()` (or the
predicate of `cv.wait_until`, whose result `wait_until` returns) yields at that point,
and the reading of `clock::now()`. -/

/-- Side effects of the worker that are visible outside it, in the order they occur. -/
inductive Event where
  /-- Entry of `cv.wait_until(lock, nextWake, ...)` at line 174, with the deadline. -/
  | cycleWait (deadline : Int)
  /-- Call `injector.ClickSingle(btnIndex)` at line 178. -/
  | click (btnIndex : Int)
  /-- Entry of `cv.wait_until(lock, subWake, ...)` at line 182, with the deadline. -/
  | subWait (deadline : Int)
  deriving DecidableEq, Repr

/-- Control points of `Worker`. -/
inductive Pc where
  /-- About to evaluate the condition of `while (!stoken.stop_requested())`, line 169. -/
  | loopCheck
  /-- Inside `cv.wait_until(lock, nextWake, ...)`, line 174. -/
  | cycleWait
  /-- About to evaluate `if (stoken.stop_requested()) return;` in iteration `i`, line 177. -/
  | burstCheck (i : Int)
  /-- About to call `injector.ClickSingle` in iteration `i`, line 178. -/
  | click (i : Int)
  /-- Inside `cv.wait_until(lock, subWake, ...)` in iteration `i`, line 182. -/
  | subWait (i : Int)
  /-- The function has returned. -/
  | exited
  deriving DecidableEq, Repr

/-- What a transition of the worker reads from its environment. -/
structure Obs where
  stop : Bool
  now : Int
  deriving DecidableEq, Repr

/-- The local variables of `Worker` together with its control point and the events it
has produced. -/
structure WorkerState (α : Type) where
  pc : Pc
  timer : StochasticTimer α
  nextWake : Int
  trace : List Event

/-- The value of `subClickDelay`, line 166. -/
def subClickDelay (sysDblTime : Int) : Int :=
  if sysDblTime > 0 then Int.tdiv sysDblTime 5 else 50

/-- The value of `count`, line 167. -/
def burstCount (config : ClickerConfig) : Int :=
  if config.typeIndex = 0 then 1 else if config.typeIndex = 1 then 2 else 3

/-- The timer constructed at line 159. -/
def Worker.timer {α : Type} [Zero α] (config : ClickerConfig) (samples : Nat → α) :
    StochasticTimer α :=
  StochasticTimer.StochasticTimer config.baseIntervalMs
    (if config.useRandom then config.randomOffsetMs else 0) samples

/-- The worker on reaching the `while` loop for the first time: lines 157-167 executed,
`t0` being the reading of `clock::now()` at line 163. -/
def Worker.init {α : Type} [Zero α] (config : ClickerConfig) (samples : Nat → α) (t0 : Int) :
    WorkerState α :=
  { pc := .loopCheck, timer := Worker.timer config samples, nextWake := t0, trace := [] }

/-- The control point reached when the condition `i < count` of the `for` loop at
line 176 is evaluated. -/
def forHead (config : ClickerConfig) (i : Int) : Pc :=
  if i < burstCount config then .burstCheck i else .loopCheck

/-- One transition of `Worker`. -/
def Worker.step {α : Type} [LinearOrderedField α] [FloorRing α] [DoubleArith α]
    (config : ClickerConfig)
    (sysDblTime : Int) (o : Obs) (w : WorkerState α) : WorkerState α :=
  match w.pc with
  | .loopCheck =>
    if o.stop then { w with pc := .exited }
    else
      let delay := w.timer.NextDelay.1
      let nextWake := w.nextWake + delay
      { pc := .cycleWait, timer := w.timer.NextDelay.2, nextWake := nextWake,
        trace := w.trace ++ [.cycleWait nextWake] }
  | .cycleWait =>
    if o.stop then { w with pc := .exited } else { w with pc := forHead config 0 }
  | .burstCheck i =>
    if o.stop then { w with pc := .exited } else { w with pc := .click i }
  | .click i =>
    let trace := w.trace ++ [.click config.buttonIndex]
    if i < burstCount config - 1 then
      { w with pc := .subWait i, trace := trace ++ [.subWait (o.now + subClickDelay sysDblTime)] }
    else { w with pc := forHead config (i + 1), trace := trace }
  | .subWait i =>
    if o.stop then { w with pc := .exited } else { w with pc := forHead config (i + 1) }
  | .exited => w

/-- The worker after consuming a list of observations, one per transition. -/
def Worker.run {α : Type} [LinearOrderedField α] [FloorRing α] [DoubleArith α]
    (config : ClickerConfig)
    (sysDblTime : Int) (os : List Obs) (w : WorkerState α) : WorkerState α :=
  os.foldl (fun w o => Worker.step config sysDblTime o w) w

/-- The deadlines of the cycle waits of a trace, in order. -/
def cycleDeadlines : List Event → List Int
  | [] => []
  | .cycleWait d :: es => d :: cycleDeadlines es
  | _ :: es => cycleDeadlines es

/-- The number of `ClickSingle` calls of a trace. -/
def clickCount : List Event → Nat
  | [] => 0
  | .click _ :: es => clickCount es + 1
  | _ :: es => clickCount es

/-! ## The control thread and the worker of one run, interleaved

After `Start` has constructed the worker thread, the control thread and the worker
advance independently: `Stop` takes `mtxConfig`, which the worker never takes, and the
worker holds `mtxCv`, which `Stop` never takes. A schedule is therefore any sequence of
`Stop` calls and worker transitions. The stop token is the only state they share; the
worker reads it in `stop_requested()` and in the predicate of `wait_until`. -/

/-- The state of one run: the engine, the stop state of the token of the run, the worker, and
the number of `Stop()` calls that have returned. -/
structure RunState (α : Type) where
  engine : EngineState
  stopRequested : Bool
  worker : WorkerState α
  stopReturns : Nat

/-- A move of a schedule: a complete call of `Stop()`, or one worker transition at which
`clock::now()` reads `now`. -/
inductive Move where
  | stop
  | worker (now : Int)
  deriving DecidableEq, Repr

/-- The run right after `Start(config)` on an idle engine has returned. -/
def RunState.init {α : Type} [Zero α] (config : ClickerConfig) (samples : Nat → α)
    (t0 : Int) : RunState α :=
  { engine := ClickerEngine.Start config ClickerEngine.init, stopRequested := false,
    worker := Worker.init config samples t0, stopReturns := 0 }

/-- One move of a schedule. `Stop()` on a running engine executes `request_stop()`,
`notify_all()` and `running.store(false)` and returns; it contains no `join()`, so the
worker is left where it is. -/
def RunState.step {α : Type} [LinearOrderedField α] [FloorRing α] [DoubleArith α]
    (config : ClickerConfig)
    (sysDblTime : Int) (s : RunState α) : Move → RunState α
  | .stop =>
    { s with engine := ClickerEngine.Stop s.engine,
             stopRequested := s.stopRequested || s.engine.running,
             stopReturns := s.stopReturns + 1 }
  | .worker now =>
    let o : Obs := { stop := s.stopRequested, now := now }
    { s with worker := Worker.step config sysDblTime o s.worker }

/-- The run after a schedule. -/
def RunState.run {α : Type} [LinearOrderedField α] [FloorRing α] [DoubleArith α]
    (config : ClickerConfig)
    (sysDblTime : Int) (ms : List Move) (s : RunState α) : RunState α :=
  ms.foldl (RunState.step config sysDblTime) s

/-- The number of worker transitions in a schedule. -/
def workerMoves : List Move → Nat
  | [] => 0
  | .worker _ :: ms => workerMoves ms + 1
  | .stop :: ms => workerMoves ms

/-! ## Auxiliary definitions for the statements and proofs below -/

/-- The unwrapped sum of the clamped time components. -/
def clampedSum (h m s ms : Int) : Int :=
  clamp h 0 24 * 3600000 + clamp m 0 59 * 60000 + clamp s 0 59 * 1000 + clamp ms 0 999

/-- The value `finalOffset` of a call of `NextDelay` on timer `t`. -/
def finalOffsetOf {α : Type} [LinearOrderedField α] [FloorRing α] [DoubleArith α]
    (t : StochasticTimer α) : α :=
  clamp (DoubleArith.fadd
      (DoubleArith.fadd (DoubleArith.fmul 0.8 t.drift)
        (DoubleArith.fmul 0.2 (t.gen.samples t.gen.pos)))
      (DoubleArith.fmul (t.gen.samples (t.gen.pos + 1)) 0.5))
    (((-t.randomOffsetMs : Int) : α)) ((t.randomOffsetMs : Int) : α)

/-- A timer with base 100 and bound 50 whose generator yields `0` and then `-1`. -/
def halfTimer : StochasticTimer ℚ :=
  { baseIntervalMs := 100, randomOffsetMs := 50,
    gen := { samples := fun k => if k = 0 then 0 else -1, pos := 0 }, drift := 0 }

/-- A timer with base 1000 and bound 500 whose drift is -0.875 and whose generator yields
`-0.25` and then `2.5`: the exact value of `0.8*drift + 0.2*step + n*0.5` is `0.5`. -/
def boundaryTimer : StochasticTimer ℚ :=
  { baseIntervalMs := 1000, randomOffsetMs := 500,
    gen := { samples := fun k => if k = 0 then -1 / 4 else 5 / 2, pos := 0 }, drift := -7 / 8 }

/-- The deadline of cycle `k` (counted from 1) as the claim gives it: the start instant
plus the first `k` delays. -/
def deadlineSum {α : Type} [LinearOrderedField α] [FloorRing α] [DoubleArith α]
    (T : StochasticTimer α)
    (t0 : Int) (k : Nat) : Int :=
  t0 + ∑ j in Finset.range k, delaySeq T j

/-- Invariant of the worker loop: after `k` cycles have been started, the timer has been
asked `k` times, `nextWake` is the `k`-th deadline sum and the recorded cycle deadlines
are the first `k` deadline sums. -/
def DeadlineInv {α : Type} [LinearOrderedField α] [FloorRing α] [DoubleArith α]
    (T : StochasticTimer α)
    (t0 : Int) (w : WorkerState α) : Prop :=
  ∃ k : Nat, w.timer = timerAfter T k ∧ w.nextWake = deadlineSum T t0 k ∧
    cycleDeadlines w.trace = (List.range k).map (fun i => deadlineSum T t0 (i + 1))

/-- The configuration of the 100 ms scenario: `h = m = s = 0`, `ms = 100`, offset `0`,
`random = false`, `btn = 0`, `type = 0`. -/
abbrev steadyConfig : ClickerConfig := ClickerConfig.ClickerConfig 0 0 0 100 0 false 0 0

/-- The events of `k` complete cycles of the 100 ms scenario started at `t0`: cycle `i`
waits until `t0 + 100 * i` and then clicks button 0 once. -/
def steadyTrace (t0 : Int) : Nat → List Event
  | 0 => []
  | k + 1 => steadyTrace t0 k ++ [.cycleWait (t0 + 100 * (k + 1)), .click 0]

/-- The observations of `k` rounds of four (loop check, cycle wait, burst check, click) none of
which sees a stop request; `now` gives the clock readings. -/
def quietObs (now : Nat → Int) (k : Nat) : List Obs :=
  (List.range (4 * k)).map (fun i => { stop := false, now := now i })

/-- Invariant of the worker in the 100 ms scenario. -/
def SteadyInv {α : Type} [LinearOrderedField α] [FloorRing α] [DoubleArith α]
    (samples : Nat → α) (t0 : Int)
    (w : WorkerState α) : Prop :=
  w.timer = Worker.timer steadyConfig samples ∧ ∃ k : Nat,
    (w.pc = .loopCheck ∧ w.trace = steadyTrace t0 k ∧ w.nextWake = t0 + 100 * k) ∨
    ((w.pc = .cycleWait ∨ w.pc = .burstCheck 0 ∨ w.pc = .click 0) ∧
      w.trace = steadyTrace t0 k ++ [.cycleWait (t0 + 100 * (k + 1))] ∧
      w.nextWake = t0 + 100 * (k + 1)) ∨
    (w.pc = .exited ∧ (w.trace = steadyTrace t0 k ∨
      w.trace = steadyTrace t0 k ++ [.cycleWait (t0 + 100 * (k + 1))]))

/-- The number of `ClickSingle` calls a worker at control point `pc` still makes once
every stop check it performs sees a stop request. -/
def pendingClick : Pc → Nat
  | .click _ => 1
  | _ => 0

/-- A bound on the number of transitions a worker at control point `pc` needs to return
once every stop check it performs sees a stop request. -/
def exitRank : Pc → Nat
  | .click _ => 2
  | .exited => 0
  | _ => 1

/-- The number of worker transitions a move stands for. -/
def moveCost : Move → Nat
  | .worker _ => 1
  | .stop => 0

/-- The button indices of the `ClickSingle` calls of a trace, in order. -/
def clickButtons : List Event → List Int
  | [] => []
  | .click b :: es => b :: clickButtons es
  | _ :: es => clickButtons es

/-- The deadlines of the intra-burst waits of a trace, in order. -/
def subWaitDeadlines : List Event → List Int
  | [] => []
  | .subWait d :: es => d :: subWaitDeadlines es
  | _ :: es => subWaitDeadlines es

/-- The events of one complete burst on button `btnIndex`: a click for every clock reading
of `nows`, each followed by a sub-wait lasting `delay` from that reading, and one last click
with no wait after it. -/
def burstEvents (btnIndex delay : Int) : List Int → List Event
  | [] => [.click btnIndex]
  | n :: ns => .click btnIndex :: .subWait (n + delay) :: burstEvents btnIndex delay ns

/-- The first `n` observations of an environment in which no stop request is ever seen;
`now` gives the clock readings. -/
def calmObs (now : Nat → Int) (n : Nat) : List Obs :=
  (List.range n).map (fun i => { stop := false, now := now i })

/-- The number of actions per cycle for the raw selector `type`: `clamp(type, 0, 2) + 1`. -/
def burstSize (type : Int) : Nat := (clamp type 0 2 + 1).toNat

/-- The clock readings taken after the clicks of a burst of `n` actions that are followed by
a sub-wait, when the cycle consumes the observations `0, 1, 2, ...`: click `i` is the
transition number `3 * i + 3` of its cycle. -/
def burstReadings (now : Nat → Int) (n : Nat) : List Int :=
  (List.range (n - 1)).map (fun i => now (3 * i + 3))

/-! ## Properties of the machine-integer helpers -/

theorem wrap64_eq_self {x : Int} (hlo : -9223372036854775808 ≤ x)
    (hhi : x < 9223372036854775808) : wrap64 x = x := by
  unfold wrap64; omega

theorem wrap32_eq_self {x : Int} (hlo : -2147483648 ≤ x) (hhi : x < 2147483648) :
    wrap32 x = x := by
  unfold wrap32; omega

theorem wrap32_range (x : Int) : -2147483648 ≤ wrap32 x ∧ wrap32 x < 2147483648 := by
  unfold wrap32; omega

theorem clamp_int_range (v lo hi : Int) (h : lo ≤ hi) :
    lo ≤ clamp v lo hi ∧ clamp v lo hi ≤ hi := by
  unfold clamp; split_ifs <;> omega

theorem abs32_eq_abs {r : Int} (hlo : -2147483648 < r) (hhi : r < 2147483648) :
    abs32 r = |r| := by
  unfold abs32
  split_ifs with h
  · rw [abs_of_neg h]; exact wrap32_eq_self (by omega) (by omega)
  · rw [abs_of_nonneg (by omega)]; exact wrap32_eq_self (by omega) (by omega)

/-! ## Properties of `ClickerConfig` -/

theorem clampedSum_range (h m s ms : Int) :
    0 ≤ clampedSum h m s ms ∧ clampedSum h m s ms ≤ 89999999 := by
  have hh := clamp_int_range h 0 24 (by decide)
  have hm := clamp_int_range m 0 59 (by decide)
  have hs := clamp_int_range s 0 59 (by decide)
  have hms := clamp_int_range ms 0 999 (by decide)
  unfold clampedSum; omega

theorem baseOf_eq (h m s ms : Int) :
    baseOf h m s ms = if clampedSum h m s ms ≤ 0 then 1 else clampedSum h m s ms := by
  have hh := clamp_int_range h 0 24 (by decide)
  have hm := clamp_int_range m 0 59 (by decide)
  have hs := clamp_int_range s 0 59 (by decide)
  have hms := clamp_int_range ms 0 999 (by decide)
  have e1 : wrap64 (clamp h 0 24 * 3600000) = clamp h 0 24 * 3600000 :=
    wrap64_eq_self (by omega) (by omega)
  have e2 : wrap64 (clamp m 0 59 * 60000) = clamp m 0 59 * 60000 :=
    wrap64_eq_self (by omega) (by omega)
  have e3 : wrap64 (clamp s 0 59 * 1000) = clamp s 0 59 * 1000 :=
    wrap64_eq_self (by omega) (by omega)
  have e4 : wrap64 (clamp h 0 24 * 3600000 + clamp m 0 59 * 60000)
      = clamp h 0 24 * 3600000 + clamp m 0 59 * 60000 :=
    wrap64_eq_self (by omega) (by omega)
  have e5 : wrap64 (clamp h 0 24 * 3600000 + clamp m 0 59 * 60000 + clamp s 0 59 * 1000)
      = clamp h 0 24 * 3600000 + clamp m 0 59 * 60000 + clamp s 0 59 * 1000 :=
    wrap64_eq_self (by omega) (by omega)
  have e6 : wrap64 (clamp h 0 24 * 3600000 + clamp m 0 59 * 60000 + clamp s 0 59 * 1000
      + clamp ms 0 999)
      = clamp h 0 24 * 3600000 + clamp m 0 59 * 60000 + clamp s 0 59 * 1000 + clamp ms 0 999 :=
    wrap64_eq_self (by omega) (by omega)
  simp only [baseOf, clampedSum, e1, e2, e3, e4, e5, e6]

theorem baseOf_range (h m s ms : Int) : 1 ≤ baseOf h m s ms ∧ baseOf h m s ms ≤ 89999999 := by
  have hr := clampedSum_range h m s ms
  rw [baseOf_eq]; split_ifs <;> omega

theorem offsetOf_eq {base : Int} (hb1 : 1 ≤ base) (hb2 : base ≤ 89999999) (offset : Int) :
    offsetOf base offset
      = if max 0 (abs32 offset) ≥ base then base - 1 else max 0 (abs32 offset) := by
  have e : wrap32 (wrap64 (base - 1)) = base - 1 := by
    rw [wrap64_eq_self (by omega) (by omega)]; exact wrap32_eq_self (by omega) (by omega)
  simp only [offsetOf, e]

theorem offsetOf_range {base : Int} (hb1 : 1 ≤ base) (hb2 : base ≤ 89999999) (offset : Int) :
    0 ≤ offsetOf base offset ∧ offsetOf base offset < base := by
  rw [offsetOf_eq hb1 hb2]
  have h0 : (0 : Int) ≤ max 0 (abs32 offset) := le_max_left _ _
  split_ifs with h <;> omega

theorem constructs_defined (h m s ms offset : Int) (random : Bool) (btn type : Int)
    (hlo : -2147483648 < offset) (hhi : offset < 2147483648) (c : ClickerConfig)
    (hc : Constructs h m s ms offset random btn type c) :
    c = ClickerConfig.ClickerConfig h m s ms offset random btn type :=
  hc (by simp [absDefined, hlo, hhi])

theorem constructs_overflow (h m s ms : Int) (random : Bool) (btn type : Int)
    (c : ClickerConfig) : Constructs h m s ms (-2147483648) random btn type c := by
  intro hd
  exact absurd hd (by decide)

/-- C1, as stated, fails at the most negative `int`: for `offset = -2147483648` line 41
evaluates `std::abs` outside its domain, the constructor is not bound to any result, and
the object with `randomOffsetMs = -2147483648` that it may leave behind violates
`0 ≤ randomOffsetMs`. -/
theorem C1_counterexample :
    Constructs 0 0 0 100 (-2147483648) true 0 0 overflowConfig ∧
    overflowConfig.randomOffsetMs = -2147483648 ∧
    ¬ (∀ c : ClickerConfig, Constructs 0 0 0 100 (-2147483648) true 0 0 c →
        1 ≤ c.baseIntervalMs ∧ 0 ≤ c.randomOffsetMs ∧ c.randomOffsetMs < c.baseIntervalMs) := by
  refine ⟨constructs_overflow 0 0 0 100 true 0 0 overflowConfig, rfl, ?_⟩
  intro hall
  have hbad := (hall overflowConfig (constructs_overflow 0 0 0 100 true 0 0 overflowConfig)).2.1
  revert hbad
  decide

/-- C1, amended: for every raw input whose offset is not the most negative `int` the
constructor yields a value (it is a total function there), and every value it yields has
`baseIntervalMs ≥ 1` and `0 ≤ randomOffsetMs < baseIntervalMs`. -/
theorem C1_config_invariant (h m s ms offset : Int) (random : Bool) (btn type : Int)
    (hlo : -2147483648 < offset) (hhi : offset < 2147483648) :
    Constructs h m s ms offset random btn type
      (ClickerConfig.ClickerConfig h m s ms offset random btn type) ∧
    ∀ c : ClickerConfig, Constructs h m s ms offset random btn type c →
      1 ≤ c.baseIntervalMs ∧ 0 ≤ c.randomOffsetMs ∧ c.randomOffsetMs < c.baseIntervalMs := by
  refine ⟨fun _ => rfl, ?_⟩
  intro c hc
  have e := constructs_defined h m s ms offset random btn type hlo hhi c hc
  subst e
  have hb := baseOf_range h m s ms
  have ho := offsetOf_range hb.1 hb.2 offset
  exact ⟨hb.1, ho.1, ho.2⟩

/-- C1, amended, at `h = m = s = 0`, `ms = 100`, offset 150. -/
theorem C1_config_invariant_witness :
    (-2147483648 : Int) < 150 ∧ (150 : Int) < 2147483648 ∧
    (0 : Int) ≤ (ClickerConfig.ClickerConfig 0 0 0 100 150 true 0 0).randomOffsetMs ∧
    (ClickerConfig.ClickerConfig 0 0 0 100 150 true 0 0).randomOffsetMs
      < (ClickerConfig.ClickerConfig 0 0 0 100 150 true 0 0).baseIntervalMs :=
  ⟨by decide, by decide,
    ((C1_config_invariant 0 0 0 100 150 true 0 0 (by decide) (by decide)).2 _
      (fun _ => rfl)).2⟩

/-- C2: `baseIntervalMs` is `H*3600000 + M*60000 + S*1000 + MS` for the clamped
components `H = clamp(h,0,24)`, `M = clamp(m,0,59)`, `S = clamp(s,0,59)`,
`MS = clamp(ms,0,999)`, except that it is `1` when that sum is `≤ 0`. -/
theorem C2_base_interval (h m s ms offset : Int) (random : Bool) (btn type : Int) :
    (ClickerConfig.ClickerConfig h m s ms offset random btn type).baseIntervalMs
      = if clamp h 0 24 * 3600000 + clamp m 0 59 * 60000 + clamp s 0 59 * 1000
            + clamp ms 0 999 ≤ 0 then 1
        else clamp h 0 24 * 3600000 + clamp m 0 59 * 60000 + clamp s 0 59 * 1000
            + clamp ms 0 999 := by
  have e := baseOf_eq h m s ms
  simpa only [clampedSum] using e

/-- C3, as stated, fails at the most negative `int`: with `h = m = s = 0`, `ms = 100` and
`r = -2147483648` the constructor stores `randomOffsetMs = 0`, while `|r| ≥ baseIntervalMs`
and the claim asks for `baseIntervalMs - 1 = 99`. -/
theorem C3_counterexample :
    ¬ (∀ r : Int, -2147483648 ≤ r → r < 2147483648 →
        (ClickerConfig.ClickerConfig 0 0 0 100 r true 0 0).randomOffsetMs
          = if |r| < (ClickerConfig.ClickerConfig 0 0 0 100 r true 0 0).baseIntervalMs then |r|
            else (ClickerConfig.ClickerConfig 0 0 0 100 r true 0 0).baseIntervalMs - 1) := by
  intro hall
  have h := hall (-2147483648) (by decide) (by decide)
  revert h
  decide

/-- C3, amended: for every requested offset `r` other than the most negative `int`,
`randomOffsetMs` is `|r|` when `|r| < baseIntervalMs` and `baseIntervalMs - 1` otherwise;
a requested `150` with `baseIntervalMs = 100` yields `99`. -/
theorem C3_offset_clamped (h m s ms r : Int) (random : Bool) (btn type : Int)
    (hlo : -2147483648 < r) (hhi : r < 2147483648) :
    ((ClickerConfig.ClickerConfig h m s ms r random btn type).randomOffsetMs
      = if |r| < (ClickerConfig.ClickerConfig h m s ms r random btn type).baseIntervalMs
        then |r|
        else (ClickerConfig.ClickerConfig h m s ms r random btn type).baseIntervalMs - 1) ∧
    (ClickerConfig.ClickerConfig 0 0 0 100 150 random btn type).baseIntervalMs = 100 ∧
    (ClickerConfig.ClickerConfig 0 0 0 100 150 random btn type).randomOffsetMs = 99 := by
  refine ⟨?_, by simp [ClickerConfig.ClickerConfig]; decide, by
    simp [ClickerConfig.ClickerConfig]; decide⟩
  have hb := baseOf_range h m s ms
  have e := offsetOf_eq hb.1 hb.2 r
  have ha : max 0 (abs32 r) = |r| := by
    rw [abs32_eq_abs hlo hhi]; exact max_eq_right (abs_nonneg r)
  rw [ha] at e
  show offsetOf (baseOf h m s ms) r = if |r| < baseOf h m s ms then |r| else baseOf h m s ms - 1
  rw [e]
  split_ifs <;> omega

/-- C3, amended, at a requested offset of 150 on a base of 100. -/
theorem C3_offset_clamped_witness :
    (-2147483648 : Int) < 150 ∧ (150 : Int) < 2147483648 ∧
    (ClickerConfig.ClickerConfig 0 0 0 100 150 true 0 0).randomOffsetMs = 99 :=
  ⟨by decide, by decide,
    (C3_offset_clamped 0 0 0 100 150 true 0 0 (by decide) (by decide)).2.2⟩

/-- C4, as stated, fails at the most negative `int`: for `offset = -2147483648` line 41 is
undefined and the constructor may leave `useRandom = true` next to
`randomOffsetMs = -2147483648`, which is not positive. -/
theorem C4_counterexample :
    Constructs 0 0 0 100 (-2147483648) true 0 0 overflowConfig ∧
    overflowConfig.useRandom = true ∧ ¬ (overflowConfig.randomOffsetMs > 0) ∧
    ¬ (∀ c : ClickerConfig, Constructs 0 0 0 100 (-2147483648) true 0 0 c →
        (c.useRandom = true ↔ true = true ∧ c.randomOffsetMs > 0)) := by
  refine ⟨constructs_overflow 0 0 0 100 true 0 0 overflowConfig, rfl, by decide, ?_⟩
  intro hall
  have hbad := hall overflowConfig (constructs_overflow 0 0 0 100 true 0 0 overflowConfig)
  revert hbad
  decide

/-- C4, amended: for every raw input whose offset is not the most negative `int`,
`useRandom` is true exactly when the caller passed `random = true` and the clamped
`randomOffsetMs` is positive; so it is false whenever `randomOffsetMs = 0`, in particular
with `baseIntervalMs = 1` and, for `random = true`, with a zero offset. -/
theorem C4_use_random (h m s ms offset : Int) (random : Bool) (btn type : Int)
    (hlo : -2147483648 < offset) (hhi : offset < 2147483648) (c : ClickerConfig)
    (hc : Constructs h m s ms offset random btn type c) :
    (c.useRandom = true ↔ random = true ∧ c.randomOffsetMs > 0) ∧
    (c.randomOffsetMs = 0 → c.useRandom = false) ∧
    (c.baseIntervalMs = 1 → c.useRandom = false) ∧
    (∀ c0 : ClickerConfig, Constructs h m s ms 0 true btn type c0 → c0.useRandom = false) := by
  have e := constructs_defined h m s ms offset random btn type hlo hhi c hc
  subst e
  have hb := baseOf_range h m s ms
  refine ⟨?_, ?_, ?_, ?_⟩
  · simp [ClickerConfig.ClickerConfig]
  · intro h0
    simp only [ClickerConfig.ClickerConfig] at h0 ⊢
    simp [h0]
  · intro h1
    have ho := offsetOf_range hb.1 hb.2 offset
    simp only [ClickerConfig.ClickerConfig] at h1 ⊢
    have e0 : offsetOf (baseOf h m s ms) offset = 0 := by omega
    simp [e0]
  · intro c0 hc0
    have e0 := constructs_defined h m s ms 0 true btn type (by decide) (by decide) c0 hc0
    subst e0
    have e := offsetOf_eq hb.1 hb.2 0
    have z : max 0 (abs32 0) = 0 := by decide
    rw [z] at e
    have e1 : offsetOf (baseOf h m s ms) 0 = 0 := by
      rw [e]; split_ifs <;> omega
    simp [ClickerConfig.ClickerConfig, e1]

/-- C4, amended, at `h = m = s = 0`, `ms = 1`, offset 40, `random = true`: the base is 1,
the clamped offset 0 and `useRandom` false. -/
theorem C4_use_random_witness :
    (-2147483648 : Int) < 40 ∧ (40 : Int) < 2147483648 ∧
    Constructs 0 0 0 1 40 true 0 0 (ClickerConfig.ClickerConfig 0 0 0 1 40 true 0 0) ∧
    (ClickerConfig.ClickerConfig 0 0 0 1 40 true 0 0).useRandom = false :=
  ⟨by decide, by decide, fun _ => rfl,
    (C4_use_random 0 0 0 1 40 true 0 0 (by decide) (by decide) _ (fun _ => rfl)).2.2.1
      (by decide)⟩

/-! ## Properties of `StochasticTimer` -/

theorem clamp_range {β : Type} [LinearOrder β] (v lo hi : β) (h : lo ≤ hi) :
    lo ≤ clamp v lo hi ∧ clamp v lo hi ≤ hi := by
  unfold clamp
  split_ifs with h1 h2
  · exact ⟨le_rfl, h⟩
  · exact ⟨h, le_rfl⟩
  · exact ⟨not_lt.mp h1, not_lt.mp h2⟩

theorem stdRound_range {α : Type} [LinearOrderedField α] [FloorRing α] (x : α) (b : Int)
    (hlo : ((-b : Int) : α) ≤ x) (hhi : x ≤ ((b : Int) : α)) :
    -b ≤ stdRound x ∧ stdRound x ≤ b := by
  have hb : (0 : α) ≤ ((b : Int) : α) := by
    by_contra hneg
    push_neg at hneg
    have h1 : ((-b : Int) : α) ≤ ((b : Int) : α) := le_trans hlo hhi
    have h2 : ((-b : Int) : α) = -((b : Int) : α) := by push_cast; ring
    rw [h2] at h1
    linarith
  have hb0 : (0 : Int) ≤ b := by exact_mod_cast hb
  unfold stdRound
  split_ifs with h0
  · constructor
    · have : (0 : Int) ≤ ⌊x + 1 / 2⌋ := Int.floor_nonneg.mpr (by linarith)
      omega
    · have : ⌊x + 1 / 2⌋ < b + 1 := by
        rw [Int.floor_lt]; push_cast; linarith
      omega
  · push_neg at h0
    constructor
    · have : -b - 1 < ⌈x - 1 / 2⌉ := by
        rw [Int.lt_ceil]; push_cast at hlo ⊢; linarith
      omega
    · have : ⌈x - 1 / 2⌉ ≤ 0 := by
        rw [Int.ceil_le]; push_cast; linarith
      omega

theorem NextDelay_disabled {α : Type} [LinearOrderedField α] [FloorRing α] [DoubleArith α]
    (t : StochasticTimer α) (h : t.randomOffsetMs ≤ 0) :
    t.NextDelay = (t.baseIntervalMs, t) := by
  simp [StochasticTimer.NextDelay, h]

theorem NextDelay_enabled {α : Type} [LinearOrderedField α] [FloorRing α] [DoubleArith α]
    (t : StochasticTimer α) (hb : 0 < t.randomOffsetMs) (hb32 : t.randomOffsetMs < 2147483648)
    (hlo : -9223372036854775808 ≤ t.baseIntervalMs - t.randomOffsetMs)
    (hhi : t.baseIntervalMs + t.randomOffsetMs < 9223372036854775808) :
    t.NextDelay.1 = max 1 (t.baseIntervalMs + stdRound (finalOffsetOf t)) ∧
    t.NextDelay.2 = { t with gen := { t.gen with pos := t.gen.pos + 2 },
                             drift := DoubleArith.fadd (DoubleArith.fmul 0.8 t.drift)
                               (DoubleArith.fmul 0.2 (t.gen.samples t.gen.pos)) } ∧
    -t.randomOffsetMs ≤ stdRound (finalOffsetOf t) ∧
    stdRound (finalOffsetOf t) ≤ t.randomOffsetMs := by
  have hle : ((-t.randomOffsetMs : Int) : α) ≤ ((t.randomOffsetMs : Int) : α) := by
    have : (-t.randomOffsetMs : Int) ≤ t.randomOffsetMs := by omega
    exact_mod_cast this
  have hc := clamp_range
    (DoubleArith.fadd
      (DoubleArith.fadd (DoubleArith.fmul 0.8 t.drift)
        (DoubleArith.fmul 0.2 (t.gen.samples t.gen.pos)))
      (DoubleArith.fmul (t.gen.samples (t.gen.pos + 1)) 0.5))
    (((-t.randomOffsetMs : Int) : α)) ((t.randomOffsetMs : Int) : α) hle
  have hr := stdRound_range (finalOffsetOf t) t.randomOffsetMs hc.1 hc.2
  have e1 : wrap64 (stdRound (finalOffsetOf t)) = stdRound (finalOffsetOf t) :=
    wrap64_eq_self (by omega) (by omega)
  have e2 : wrap64 (t.baseIntervalMs + stdRound (finalOffsetOf t))
      = t.baseIntervalMs + stdRound (finalOffsetOf t) :=
    wrap64_eq_self (by omega) (by omega)
  refine ⟨?_, ?_, hr.1, hr.2⟩
  · have : t.NextDelay.1
        = max 1 (wrap64 (t.baseIntervalMs + wrap64 (stdRound (finalOffsetOf t)))) := by
      simp [StochasticTimer.NextDelay, not_le.mpr hb, Gen.draw, finalOffsetOf]
    rw [this, e1, e2]
  · simp [StochasticTimer.NextDelay, not_le.mpr hb, Gen.draw]

theorem timerAfter_disabled {α : Type} [LinearOrderedField α] [FloorRing α] [DoubleArith α]
    (t : StochasticTimer α) (h : t.randomOffsetMs ≤ 0) (n : Nat) : timerAfter t n = t := by
  induction n with
  | zero => rfl
  | succ k ih => simp [timerAfter, ih, NextDelay_disabled t h]

/-- C5: when the constructed configuration has `useRandom = false`, every call of
`NextDelay` on the timer the worker builds returns `baseIntervalMs` and leaves the timer
(drift and generator) as it was, so no sample is drawn. -/
theorem C5_disabled_timer {α : Type} [LinearOrderedField α] [FloorRing α] [DoubleArith α]
    (h m s ms offset : Int) (random : Bool) (btn type : Int) (samples : Nat → α) (n : Nat)
    (hoff : (ClickerConfig.ClickerConfig h m s ms offset random btn type).useRandom = false) :
    (timerAfter (Worker.timer (ClickerConfig.ClickerConfig h m s ms offset random btn type)
        samples) n).NextDelay
      = ((ClickerConfig.ClickerConfig h m s ms offset random btn type).baseIntervalMs,
         timerAfter (Worker.timer (ClickerConfig.ClickerConfig h m s ms offset random btn type)
          samples) n) ∧
    timerAfter (Worker.timer (ClickerConfig.ClickerConfig h m s ms offset random btn type)
        samples) n
      = Worker.timer (ClickerConfig.ClickerConfig h m s ms offset random btn type) samples ∧
    (timerAfter (Worker.timer (ClickerConfig.ClickerConfig h m s ms offset random btn type)
        samples) n).gen.pos = 0 := by
  have h0 : (Worker.timer (ClickerConfig.ClickerConfig h m s ms offset random btn type)
      samples).randomOffsetMs ≤ 0 := by
    simp [Worker.timer, StochasticTimer.StochasticTimer, hoff]
  have e := timerAfter_disabled _ h0 n
  rw [e]
  exact ⟨NextDelay_disabled _ h0, rfl, rfl⟩

/-- C5 at the configuration `ms = 100`, offset 40, `random = false`, fourth call. -/
theorem C5_disabled_timer_witness :
    (ClickerConfig.ClickerConfig 0 0 0 100 40 false 0 0).useRandom = false ∧
    (timerAfter (Worker.timer (ClickerConfig.ClickerConfig 0 0 0 100 40 false 0 0)
        (fun k => (k : ℚ))) 3).NextDelay
      = ((ClickerConfig.ClickerConfig 0 0 0 100 40 false 0 0).baseIntervalMs,
         timerAfter (Worker.timer (ClickerConfig.ClickerConfig 0 0 0 100 40 false 0 0)
          (fun k => (k : ℚ))) 3) :=
  ⟨by decide, (C5_disabled_timer 0 0 0 100 40 false 0 0 (fun k => (k : ℚ)) 3 (by decide)).1⟩

theorem timerAfter_fields {α : Type} [LinearOrderedField α] [FloorRing α] [DoubleArith α]
    (t : StochasticTimer α) (n : Nat) :
    (timerAfter t n).baseIntervalMs = t.baseIntervalMs ∧
    (timerAfter t n).randomOffsetMs = t.randomOffsetMs := by
  induction n with
  | zero => exact ⟨rfl, rfl⟩
  | succ k ih =>
    simp only [timerAfter, StochasticTimer.NextDelay]
    split_ifs <;> exact ih

theorem jitter_bounds_of_fields {α : Type} [LinearOrderedField α] [FloorRing α] [DoubleArith α]
    (t : StochasticTimer α) (B b : Int) (hB : t.baseIntervalMs = B) (hb : t.randomOffsetMs = b)
    (h0 : 0 < b) (h1 : b < B) (h2 : B ≤ 89999999) :
    |t.NextDelay.1 - B| ≤ b ∧ 1 ≤ t.NextDelay.1 := by
  subst hB hb
  have e := NextDelay_enabled t h0 (by omega) (by omega) (by omega)
  rw [e.1]
  have hmax : max 1 (t.baseIntervalMs + stdRound (finalOffsetOf t))
      = t.baseIntervalMs + stdRound (finalOffsetOf t) := max_eq_right (by omega)
  rw [hmax]
  refine ⟨?_, by omega⟩
  rw [abs_le]; omega

/-- C6, as stated, fails at the most negative `int`: for `offset = -2147483648` the
constructor may leave `useRandom = true` with `randomOffsetMs = -2147483648`; the timer
built from that object returns the base, 100, and `|100 - 100| ≤ -2147483648` is false. -/
theorem C6_counterexample :
    Constructs 0 0 0 100 (-2147483648) true 0 0 overflowConfig ∧
    overflowConfig.useRandom = true ∧
    (Worker.timer overflowConfig (fun _ => (0 : ℚ))).NextDelay.1 = 100 ∧
    ¬ (∀ c : ClickerConfig, Constructs 0 0 0 100 (-2147483648) true 0 0 c →
        c.useRandom = true →
        |(Worker.timer c (fun _ => (0 : ℚ))).NextDelay.1 - c.baseIntervalMs|
          ≤ c.randomOffsetMs) := by
  have hd : (Worker.timer overflowConfig (fun _ => (0 : ℚ))).NextDelay.1 = 100 := by
    rw [NextDelay_disabled _ (by decide)]
    rfl
  refine ⟨constructs_overflow 0 0 0 100 true 0 0 overflowConfig, rfl, hd, ?_⟩
  intro hall
  have hbad := hall overflowConfig (constructs_overflow 0 0 0 100 true 0 0 overflowConfig) rfl
  rw [hd] at hbad
  revert hbad
  decide

/-- C6, amended: for every configuration constructed from raw inputs whose offset is not
the most negative `int` and with `useRandom = true`, for every drift value and every sample
stream the delay `d` returned by `NextDelay` of the timer of the worker satisfies
`|d - baseIntervalMs| ≤ randomOffsetMs` and `d ≥ 1`, whatever the double-precision sums and
products are; this holds in particular for every call `n` made during a run. -/
theorem C6_jitter_bounds {α : Type} [LinearOrderedField α] [FloorRing α] [DoubleArith α]
    (h m s ms offset : Int) (random : Bool) (btn type : Int) (gen : Gen α) (drift : α)
    (samples : Nat → α) (n : Nat)
    (hlo : -2147483648 < offset) (hhi : offset < 2147483648) (c : ClickerConfig)
    (hc : Constructs h m s ms offset random btn type c) (hon : c.useRandom = true) :
    (|({ Worker.timer c samples with gen := gen, drift := drift } :
          StochasticTimer α).NextDelay.1 - c.baseIntervalMs| ≤ c.randomOffsetMs ∧
     1 ≤ ({ Worker.timer c samples with gen := gen, drift := drift } :
          StochasticTimer α).NextDelay.1) ∧
    (|delaySeq (Worker.timer c samples) n - c.baseIntervalMs| ≤ c.randomOffsetMs ∧
     1 ≤ delaySeq (Worker.timer c samples) n) := by
  have e := constructs_defined h m s ms offset random btn type hlo hhi c hc
  subst e
  have hb := baseOf_range h m s ms
  have ho := offsetOf_range hb.1 hb.2 offset
  have hlt : (ClickerConfig.ClickerConfig h m s ms offset random btn type).randomOffsetMs
      < (ClickerConfig.ClickerConfig h m s ms offset random btn type).baseIntervalMs := ho.2
  have hpos : 0 < (ClickerConfig.ClickerConfig h m s ms offset random btn type).randomOffsetMs := by
    have := hon
    simp only [ClickerConfig.ClickerConfig, Bool.and_eq_true, decide_eq_true_eq] at this ⊢
    exact this.2
  have hB : (ClickerConfig.ClickerConfig h m s ms offset random btn type).baseIntervalMs
      ≤ 89999999 := hb.2
  constructor
  · apply jitter_bounds_of_fields _ _ _ _ _ hpos hlt hB
    · rfl
    · simp [Worker.timer, StochasticTimer.StochasticTimer, hon]
  · have f := timerAfter_fields
      (Worker.timer (ClickerConfig.ClickerConfig h m s ms offset random btn type) samples) n
    apply jitter_bounds_of_fields _ _ _ _ _ hpos hlt hB
    · rw [f.1]; rfl
    · rw [f.2]; simp [Worker.timer, StochasticTimer.StochasticTimer, hon]

/-- C6, amended, at the configuration `ms = 100`, offset 40, `random = true`, third call. -/
theorem C6_jitter_bounds_witness :
    (-2147483648 : Int) < 40 ∧ (40 : Int) < 2147483648 ∧
    Constructs 0 0 0 100 40 true 0 0 (ClickerConfig.ClickerConfig 0 0 0 100 40 true 0 0) ∧
    (ClickerConfig.ClickerConfig 0 0 0 100 40 true 0 0).useRandom = true ∧
    1 ≤ delaySeq (Worker.timer (ClickerConfig.ClickerConfig 0 0 0 100 40 true 0 0)
          (fun k => (1000 * k : ℚ))) 2 :=
  ⟨by decide, by decide, fun _ => rfl, by decide,
    (C6_jitter_bounds 0 0 0 100 40 true 0 0 ⟨fun _ => (0 : ℚ), 0⟩ 0 (fun k => (1000 * k : ℚ)) 2
      (by decide) (by decide) _ (fun _ => rfl) (by decide)).2.2⟩

theorem stdRound_neg_half : stdRound (-(1 / 2) : ℚ) = -1 := by
  have h : ¬ (0 : ℚ) ≤ -(1 / 2) := by norm_num
  have e : (-(1 / 2) : ℚ) - 1 / 2 = ((-1 : Int) : ℚ) := by norm_num
  rw [stdRound, if_neg h, e, Int.ceil_intCast]

theorem stdRound_ninety_nine_half : stdRound ((100 : ℚ) + -(1 / 2)) = 100 := by
  have h : (0 : ℚ) ≤ 100 + -(1 / 2) := by norm_num
  have e : (100 : ℚ) + -(1 / 2) + 1 / 2 = ((100 : Int) : ℚ) := by norm_num
  rw [stdRound, if_pos h, e, Int.floor_intCast]

theorem roundHalfEven_intCast (n : Int) : roundHalfEven (n : ℚ) = n := by
  simp [roundHalfEven]

theorem toDouble_zero : toDouble 0 = 0 := by simp [toDouble]

theorem toDouble_of_grid (q : ℚ) (e n : Int) (hq : q ≠ 0) (hlog : Int.log 2 |q| = e)
    (hn : q = (n : ℚ) * 2 ^ (max (e - 52) (-1074))) : toDouble q = q := by
  have hu : (2 : ℚ) ^ (max (e - 52) (-1074)) ≠ 0 := zpow_ne_zero _ (by norm_num)
  have hd : q / 2 ^ (max (e - 52) (-1074)) = (n : ℚ) := by
    rw [hn]; field_simp
  simp only [toDouble, if_neg hq, hlog, hd, roundHalfEven_intCast]
  exact hn.symm

theorem toDouble_neg_one : toDouble (-1) = -1 := by
  apply toDouble_of_grid (-1) 0 (-4503599627370496) (by norm_num)
  · simp
  · norm_num

theorem log_two_half : Int.log 2 |(1 / 2 : ℚ)| = -1 := by
  have e : |(1 / 2 : ℚ)| = ((2 : ℕ) : ℚ) ^ (-1 : ℤ) := by norm_num
  rw [e, Int.log_zpow (by norm_num)]

theorem toDouble_half : toDouble (1 / 2) = 1 / 2 := by
  apply toDouble_of_grid (1 / 2) (-1) 4503599627370496 (by norm_num) log_two_half
  norm_num

theorem toDouble_neg_half : toDouble (-(1 / 2)) = -(1 / 2) := by
  apply toDouble_of_grid (-(1 / 2)) (-1) (-4503599627370496) (by norm_num)
  · rw [abs_neg]; exact log_two_half
  · norm_num

theorem halfTimer_finalOffset : finalOffsetOf halfTimer = -(1 / 2) := by
  have h1 : DoubleArith.fmul (0.8 : ℚ) 0 = 0 := by
    simp [DoubleArith.fmul, toDouble_zero]
  have h2 : DoubleArith.fmul (0.2 : ℚ) 0 = 0 := by
    simp [DoubleArith.fmul, toDouble_zero]
  have h3 : DoubleArith.fadd (0 : ℚ) 0 = 0 := by
    simp [DoubleArith.fadd, toDouble_zero]
  have h4 : DoubleArith.fmul (-1 : ℚ) (1 / 2) = -(1 / 2) := by
    have e2 : (-1 : ℚ) * (1 / 2) = -(1 / 2) := by norm_num
    simp only [DoubleArith.fmul, toDouble_neg_one, toDouble_half, e2, toDouble_neg_half]
  have h5 : DoubleArith.fadd (0 : ℚ) (-(1 / 2)) = -(1 / 2) := by
    simp only [DoubleArith.fadd, toDouble_zero, toDouble_neg_half, zero_add]
  simp only [finalOffsetOf, halfTimer, if_true, if_false, h1, h2, h3, clamp]
  norm_num [h4, h5]

theorem roundHalfEven_near (m : ℚ) (n : Int) (h1 : (n : ℚ) - 1 / 2 < m)
    (h2 : m < (n : ℚ) + 1 / 2) : roundHalfEven m = n := by
  have hf1 : n - 1 ≤ ⌊m⌋ := by
    rw [Int.le_floor]; push_cast; linarith
  have hf2 : ⌊m⌋ ≤ n := by
    have : ⌊m⌋ < n + 1 := by
      rw [Int.floor_lt]; push_cast; linarith
    omega
  have hfl := Int.floor_le m
  have hlt := Int.lt_floor_add_one m
  rcases (by omega : ⌊m⌋ = n ∨ ⌊m⌋ = n - 1) with hc | hc
  · have : m - (⌊m⌋ : ℚ) < 1 / 2 := by rw [hc]; linarith
    simp only [roundHalfEven, if_pos this]
    exact hc
  · have h3 : ¬ (m - (⌊m⌋ : ℚ) < 1 / 2) := by
      rw [hc]; push_cast; linarith
    have h4 : 1 / 2 < m - (⌊m⌋ : ℚ) := by
      rw [hc]; push_cast; linarith
    simp only [roundHalfEven, if_neg h3, if_pos h4]
    omega

theorem log_two_eq (a : ℚ) (e : Int) (h1 : (2 : ℚ) ^ e ≤ a) (h2 : a < (2 : ℚ) ^ (e + 1)) :
    Int.log 2 a = e := by
  have hpos : 0 < a := lt_of_lt_of_le (zpow_pos (by norm_num) e) h1
  have l1 : e ≤ Int.log 2 a := by
    rw [← Int.zpow_le_iff_le_log (by norm_num) hpos]; exact_mod_cast h1
  have l2 : Int.log 2 a < e + 1 := by
    rw [← Int.lt_zpow_iff_log_lt (by norm_num) hpos]; exact_mod_cast h2
  omega

theorem toDouble_eq (q a : ℚ) (e n : Int) (v : ℚ) (ha : |q| = a)
    (h1 : (2 : ℚ) ^ e ≤ a) (h2 : a < (2 : ℚ) ^ (e + 1))
    (h3 : (n : ℚ) - 1 / 2 < q / 2 ^ (max (e - 52) (-1074)))
    (h4 : q / 2 ^ (max (e - 52) (-1074)) < (n : ℚ) + 1 / 2)
    (hv : v = (n : ℚ) * 2 ^ (max (e - 52) (-1074))) : toDouble q = v := by
  have hq : q ≠ 0 := by
    intro h0
    rw [h0, abs_zero] at ha
    have : (0 : ℚ) < a := lt_of_lt_of_le (zpow_pos (by norm_num) e) h1
    linarith
  have hlog : Int.log 2 |q| = e := by rw [ha]; exact log_two_eq a e h1 h2
  simp only [toDouble, if_neg hq, hlog, roundHalfEven_near _ n h3 h4]
  exact hv.symm

theorem toDouble_four_fifths : toDouble (4 / 5) = 3602879701896397 / 4503599627370496 := by
  apply toDouble_eq (4 / 5) (4 / 5) (-1) (7205759403792794) _
    (abs_of_pos (by norm_num))
  all_goals norm_num

theorem toDouble_one_fifth : toDouble (1 / 5) = 3602879701896397 / 18014398509481984 := by
  apply toDouble_eq (1 / 5) (1 / 5) (-3) (7205759403792794) _
    (abs_of_pos (by norm_num))
  all_goals norm_num

theorem toDouble_boundary_drift : toDouble (-7 / 8) = -7 / 8 := by
  apply toDouble_eq (-7 / 8) (7 / 8) (-1) (-7881299347898368) _
    (by rw [abs_of_neg (by norm_num)]; norm_num)
  all_goals norm_num

theorem toDouble_boundary_step : toDouble (-1 / 4) = -1 / 4 := by
  apply toDouble_eq (-1 / 4) (1 / 4) (-2) (-4503599627370496) _
    (by rw [abs_of_neg (by norm_num)]; norm_num)
  all_goals norm_num

theorem toDouble_boundary_sample : toDouble (5 / 2) = 5 / 2 := by
  apply toDouble_eq (5 / 2) (5 / 2) (1) (5629499534213120) _
    (abs_of_pos (by norm_num))
  all_goals norm_num

theorem toDouble_boundary_prod1 : toDouble (3602879701896397 / 4503599627370496 * (-7 / 8)) = -6305039478318695 / 9007199254740992 := by
  apply toDouble_eq (3602879701896397 / 4503599627370496 * (-7 / 8)) (25220157913274779 / 36028797018963968) (-1) (-6305039478318695) _
    (by rw [abs_of_neg (by norm_num)]; norm_num)
  all_goals norm_num

theorem toDouble_boundary_prod2 : toDouble (3602879701896397 / 18014398509481984 * (-1 / 4)) = -3602879701896397 / 72057594037927936 := by
  apply toDouble_eq (3602879701896397 / 18014398509481984 * (-1 / 4)) (3602879701896397 / 72057594037927936) (-5) (-7205759403792794) _
    (by rw [abs_of_neg (by norm_num)]; norm_num)
  all_goals norm_num

theorem toDouble_boundary_prod1_fix : toDouble (-6305039478318695 / 9007199254740992) = -6305039478318695 / 9007199254740992 := by
  apply toDouble_eq (-6305039478318695 / 9007199254740992) (6305039478318695 / 9007199254740992) (-1) (-6305039478318695) _
    (by rw [abs_of_neg (by norm_num)]; norm_num)
  all_goals norm_num

theorem toDouble_boundary_prod2_fix : toDouble (-3602879701896397 / 72057594037927936) = -3602879701896397 / 72057594037927936 := by
  apply toDouble_eq (-3602879701896397 / 72057594037927936) (3602879701896397 / 72057594037927936) (-5) (-7205759403792794) _
    (by rw [abs_of_neg (by norm_num)]; norm_num)
  all_goals norm_num

theorem toDouble_boundary_sum : toDouble (-6305039478318695 / 9007199254740992 + -3602879701896397 / 72057594037927936) = -6755399441055745 / 9007199254740992 := by
  apply toDouble_eq (-6305039478318695 / 9007199254740992 + -3602879701896397 / 72057594037927936) (54043195528445957 / 72057594037927936) (-1) (-6755399441055745) _
    (by rw [abs_of_neg (by norm_num)]; norm_num)
  all_goals norm_num

theorem toDouble_boundary_noise : toDouble (5 / 2 * (1 / 2)) = 5 / 4 := by
  apply toDouble_eq (5 / 2 * (1 / 2)) (5 / 2 * (1 / 2)) (0) (5629499534213120) _
    (abs_of_pos (by norm_num))
  all_goals norm_num

theorem toDouble_boundary_sum_fix : toDouble (-6755399441055745 / 9007199254740992) = -6755399441055745 / 9007199254740992 := by
  apply toDouble_eq (-6755399441055745 / 9007199254740992) (6755399441055745 / 9007199254740992) (-1) (-6755399441055745) _
    (by rw [abs_of_neg (by norm_num)]; norm_num)
  all_goals norm_num

theorem toDouble_boundary_noise_fix : toDouble (5 / 4) = 5 / 4 := by
  apply toDouble_eq (5 / 4) (5 / 4) (0) (5629499534213120) _
    (abs_of_pos (by norm_num))
  all_goals norm_num

theorem toDouble_boundary_offset : toDouble (-6755399441055745 / 9007199254740992 + 5 / 4) = 4503599627370495 / 9007199254740992 := by
  apply toDouble_eq (-6755399441055745 / 9007199254740992 + 5 / 4) (-6755399441055745 / 9007199254740992 + 5 / 4) (-2) (9007199254740990) _
    (abs_of_pos (by norm_num))
  all_goals norm_num

theorem boundaryTimer_finalOffset :
    finalOffsetOf boundaryTimer = 4503599627370495 / 9007199254740992 := by
  have hs0 : boundaryTimer.gen.samples boundaryTimer.gen.pos = -1 / 4 := rfl
  have hs1 : boundaryTimer.gen.samples (boundaryTimer.gen.pos + 1) = 5 / 2 := rfl
  have hd : boundaryTimer.drift = -7 / 8 := rfl
  have e08 : (0.8 : ℚ) = 4 / 5 := by norm_num
  have e02 : (0.2 : ℚ) = 1 / 5 := by norm_num
  have e05 : (0.5 : ℚ) = 1 / 2 := by norm_num
  have hv : DoubleArith.fadd
      (DoubleArith.fadd (DoubleArith.fmul 0.8 boundaryTimer.drift)
        (DoubleArith.fmul 0.2 (boundaryTimer.gen.samples boundaryTimer.gen.pos)))
      (DoubleArith.fmul (boundaryTimer.gen.samples (boundaryTimer.gen.pos + 1)) 0.5)
      = (4503599627370495 / 9007199254740992 : ℚ) := by
    rw [hs0, hs1, hd]
    simp only [DoubleArith.fadd, DoubleArith.fmul, e08, e02, e05, toDouble_half, toDouble_four_fifths, toDouble_one_fifth, toDouble_boundary_drift, toDouble_boundary_step, toDouble_boundary_sample, toDouble_boundary_prod1, toDouble_boundary_prod2, toDouble_boundary_prod1_fix, toDouble_boundary_prod2_fix, toDouble_boundary_sum, toDouble_boundary_noise, toDouble_boundary_sum_fix, toDouble_boundary_noise_fix, toDouble_boundary_offset]
  unfold finalOffsetOf
  rw [hv]
  simp only [clamp, boundaryTimer]
  norm_num

/-- The rounding of the double-precision operations decides the result at a boundary: on
the timer with base 1000, bound 500, drift -0.875 and samples -0.25 and 2.5 the offset is
`0.5 - 2 ^ (-53)` and `NextDelay` returns 1000, while the exact sum is `0.5` and would give
1001. -/
theorem boundaryTimer_delay :
    boundaryTimer.NextDelay.1 = 1000 ∧
    max 1 (1000 + stdRound
      (clamp ((4 / 5 : ℚ) * (-7 / 8) + 1 / 5 * (-1 / 4) + 5 / 2 * (1 / 2)) (-500) 500)) = 1001 := by
  have e := NextDelay_enabled boundaryTimer (by decide) (by decide) (by decide) (by decide)
  constructor
  · have hr : stdRound (4503599627370495 / 9007199254740992 : ℚ) = 0 := by
      have h0 : (0 : ℚ) ≤ 4503599627370495 / 9007199254740992 := by norm_num
      rw [stdRound, if_pos h0, Int.floor_eq_iff]
      constructor <;> norm_num
    rw [e.1, boundaryTimer_finalOffset, hr]
    decide
  · have hx : clamp ((4 / 5 : ℚ) * (-7 / 8) + 1 / 5 * (-1 / 4) + 5 / 2 * (1 / 2)) (-500) 500
        = 1 / 2 := by
      simp only [clamp]; norm_num
    have hr : stdRound (1 / 2 : ℚ) = 1 := by
      have h0 : (0 : ℚ) ≤ 1 / 2 := by norm_num
      have e1 : (1 / 2 : ℚ) + 1 / 2 = ((1 : Int) : ℚ) := by norm_num
      rw [stdRound, if_pos h0, e1, Int.floor_intCast]
    rw [hx, hr]
    decide

/-- C7, as stated, fails: on the timer with base 100, bound 50, drift 0 and samples
`step = 0`, `n = -1` every product and sum of lines 97-99 is exact in double precision
and the offset is `-0.5`; the code returns `100 + round(-0.5) = 99`, while
`round(100 + (-0.5)) = round(99.5) = 100`. -/
theorem C7_counterexample :
    finalOffsetOf halfTimer = -(1 / 2) ∧
    halfTimer.NextDelay.1 = 99 ∧
    max 1 (stdRound ((halfTimer.baseIntervalMs : ℚ) + finalOffsetOf halfTimer)) = 100 ∧
    halfTimer.NextDelay.1
      ≠ max 1 (stdRound ((halfTimer.baseIntervalMs : ℚ) + finalOffsetOf halfTimer)) := by
  have e := NextDelay_enabled halfTimer (by decide) (by decide) (by decide) (by decide)
  have h1 : halfTimer.NextDelay.1 = 99 := by
    rw [e.1, halfTimer_finalOffset, stdRound_neg_half]; decide
  have h2 : max 1 (stdRound ((halfTimer.baseIntervalMs : ℚ) + finalOffsetOf halfTimer)) = 100 := by
    have hb : ((halfTimer.baseIntervalMs : Int) : ℚ) = 100 := by simp [halfTimer]
    rw [halfTimer_finalOffset, hb, stdRound_ninety_nine_half]; decide
  refine ⟨halfTimer_finalOffset, h1, h2, ?_⟩
  rw [h1, h2]; decide

/-- C7, amended: for a timer with base `B` and bound `0 < b` (within the range of `int`,
and `B ± b` within the range of `int64_t`), prior drift `d` and samples `step`, `n`, one
call of `NextDelay` sets drift to `0.8*d + 0.2*step`, computes
`offset = clamp(drift + n*0.5, -b, b)`, every product and sum being the double-precision
operation and not the exact one, and returns `max(1, B + round(offset))`: the offset is
rounded before the base is added. It consumes exactly two samples. -/
theorem C7_next_delay {α : Type} [LinearOrderedField α] [FloorRing α] [DoubleArith α]
    (B b : Int) (samples : Nat → α) (pos : Nat) (d : α)
    (hb : 0 < b) (hb32 : b < 2147483648)
    (hlo : -9223372036854775808 ≤ B - b) (hhi : B + b < 9223372036854775808) :
    (({ baseIntervalMs := B, randomOffsetMs := b, gen := { samples := samples, pos := pos },
        drift := d } : StochasticTimer α).NextDelay.2.drift
      = DoubleArith.fadd (DoubleArith.fmul 0.8 d) (DoubleArith.fmul 0.2 (samples pos))) ∧
    (({ baseIntervalMs := B, randomOffsetMs := b, gen := { samples := samples, pos := pos },
        drift := d } : StochasticTimer α).NextDelay.1
      = max 1 (B + stdRound (clamp
          (DoubleArith.fadd
            (DoubleArith.fadd (DoubleArith.fmul 0.8 d) (DoubleArith.fmul 0.2 (samples pos)))
            (DoubleArith.fmul (samples (pos + 1)) 0.5))
          (-(b : α)) (b : α)))) ∧
    (({ baseIntervalMs := B, randomOffsetMs := b, gen := { samples := samples, pos := pos },
        drift := d } : StochasticTimer α).NextDelay.2.gen.pos = pos + 2) := by
  have e := NextDelay_enabled (⟨B, b, ⟨samples, pos⟩, d⟩ : StochasticTimer α) hb hb32 hlo hhi
  refine ⟨?_, ?_, ?_⟩
  · rw [e.2.1]
  · rw [e.1]
    simp only [finalOffsetOf, Int.cast_neg]
  · rw [e.2.1]

/-- C7, amended, at base 100, bound 50, drift 0 and samples 0 and -1. -/
theorem C7_next_delay_witness :
    (0 : Int) < 50 ∧ (50 : Int) < 2147483648 ∧
    (-9223372036854775808 : Int) ≤ 100 - 50 ∧ (100 : Int) + 50 < 9223372036854775808 ∧
    (({ baseIntervalMs := 100, randomOffsetMs := 50,
        gen := { samples := fun k => if k = 0 then (0 : ℚ) else -1, pos := 0 },
        drift := 0 } : StochasticTimer ℚ).NextDelay.2.gen.pos = 0 + 2) :=
  ⟨by decide, by decide, by decide, by decide,
    (C7_next_delay 100 50 (fun k => if k = 0 then (0 : ℚ) else -1) 0 0 (by decide) (by decide)
      (by decide) (by decide)).2.2⟩

/-! ## Properties of the control plane -/

/-- C8: `Start` on a running engine and `Stop` on an idle engine leave the control state
unchanged. So `Start; Start` from idle constructs exactly one worker thread and leaves
`IsRunning()` true, and `Stop; Stop` from running leaves the state of a single `Stop`,
with `IsRunning()` false. -/
theorem C8_start_stop_idempotent (config config2 : ClickerConfig) (e : EngineState) :
    (e.running = true → ClickerEngine.Start config e = e) ∧
    (e.running = false → ClickerEngine.Stop e = e) ∧
    (e.running = false →
      (ClickerEngine.Start config2 (ClickerEngine.Start config e)).spawned.length
          = e.spawned.length + 1 ∧
      (ClickerEngine.Start config2 (ClickerEngine.Start config e)).spawned
          = config :: e.spawned ∧
      ClickerEngine.IsRunning (ClickerEngine.Start config2 (ClickerEngine.Start config e))
          = true) ∧
    (e.running = true →
      ClickerEngine.Stop (ClickerEngine.Stop e) = ClickerEngine.Stop e ∧
      (ClickerEngine.Stop (ClickerEngine.Stop e)).stopSignals = e.stopSignals + 1 ∧
      ClickerEngine.IsRunning (ClickerEngine.Stop (ClickerEngine.Stop e)) = false) ∧
    (ClickerEngine.Start config2 (ClickerEngine.Start config ClickerEngine.init)).spawned.length
        = 1 ∧
    ClickerEngine.IsRunning
        (ClickerEngine.Start config2 (ClickerEngine.Start config ClickerEngine.init)) = true := by
  refine ⟨?_, ?_, ?_, ?_, ?_, ?_⟩
  · intro h; simp [ClickerEngine.Start, h]
  · intro h; simp [ClickerEngine.Stop, h]
  · intro h; simp [ClickerEngine.Start, ClickerEngine.IsRunning, h]
  · intro h; simp [ClickerEngine.Stop, ClickerEngine.IsRunning, h]
  · simp [ClickerEngine.Start, ClickerEngine.init]
  · simp [ClickerEngine.Start, ClickerEngine.IsRunning, ClickerEngine.init]

/-! ## Properties of the worker loop -/

theorem cycleDeadlines_append (a b : List Event) :
    cycleDeadlines (a ++ b) = cycleDeadlines a ++ cycleDeadlines b := by
  induction a with
  | nil => rfl
  | cons e es ih => cases e <;> simp [cycleDeadlines, ih]

theorem worker_run_append {α : Type} [LinearOrderedField α] [FloorRing α] [DoubleArith α]
    (config : ClickerConfig) (sysDblTime : Int) (os os2 : List Obs) (w : WorkerState α) :
    Worker.run config sysDblTime (os ++ os2) w
      = Worker.run config sysDblTime os2 (Worker.run config sysDblTime os w) := by
  simp [Worker.run, List.foldl_append]

theorem DeadlineInv_step {α : Type} [LinearOrderedField α] [FloorRing α] [DoubleArith α]
    (config : ClickerConfig) (sysDblTime : Int) (T : StochasticTimer α) (t0 : Int) (o : Obs)
    (w : WorkerState α) (hw : DeadlineInv T t0 w) :
    DeadlineInv T t0 (Worker.step config sysDblTime o w) := by
  obtain ⟨k, ht, hn, hd⟩ := hw
  rcases w with ⟨pc, timer, nw, tr⟩
  simp only at ht hn hd
  cases pc with
  | loopCheck =>
    by_cases hs : o.stop = true
    · exact ⟨k, by simp [Worker.step, hs, ht], by simp [Worker.step, hs, hn],
        by simp [Worker.step, hs, hd]⟩
    · have hnext : nw + timer.NextDelay.1 = deadlineSum T t0 (k + 1) := by
        rw [hn, ht]
        simp only [deadlineSum, Finset.sum_range_succ, delaySeq]
        ring
      refine ⟨k + 1, ?_, ?_, ?_⟩
      · simp [Worker.step, hs, ht, timerAfter]
      · simp only [Worker.step, hs]
        exact hnext
      · simp only [Worker.step, hs, Bool.false_eq_true, if_false, cycleDeadlines_append, hd,
          List.range_succ, List.map_append, List.map_cons, List.map_nil, cycleDeadlines, hnext]
  | cycleWait =>
    refine ⟨k, ?_, ?_, ?_⟩ <;> · simp only [Worker.step]; split_ifs <;> assumption
  | burstCheck i =>
    refine ⟨k, ?_, ?_, ?_⟩ <;> · simp only [Worker.step]; split_ifs <;> assumption
  | click i =>
    refine ⟨k, ?_, ?_, ?_⟩
    · simp only [Worker.step]; split_ifs <;> assumption
    · simp only [Worker.step]; split_ifs <;> assumption
    · simp only [Worker.step]
      split_ifs <;> simp [cycleDeadlines_append, cycleDeadlines, hd]
  | subWait i =>
    refine ⟨k, ?_, ?_, ?_⟩ <;> · simp only [Worker.step]; split_ifs <;> assumption
  | exited => exact ⟨k, ht, hn, hd⟩

theorem DeadlineInv_run {α : Type} [LinearOrderedField α] [FloorRing α] [DoubleArith α]
    (config : ClickerConfig) (sysDblTime : Int) (T : StochasticTimer α) (t0 : Int)
    (os : List Obs) (w : WorkerState α) (hw : DeadlineInv T t0 w) :
    DeadlineInv T t0 (Worker.run config sysDblTime os w) := by
  induction os generalizing w with
  | nil => exact hw
  | cons o os ih =>
    exact ih _ (DeadlineInv_step config sysDblTime T t0 o w hw)

theorem DeadlineInv_init {α : Type} [LinearOrderedField α] [FloorRing α] [DoubleArith α]
    (config : ClickerConfig) (samples : Nat → α) (t0 : Int) :
    DeadlineInv (Worker.timer config samples) t0 (Worker.init config samples t0) :=
  ⟨0, rfl, by simp [Worker.init, deadlineSum], by simp [Worker.init, cycleDeadlines]⟩

theorem cycleDeadlines_run {α : Type} [LinearOrderedField α] [FloorRing α] [DoubleArith α]
    (config : ClickerConfig) (sysDblTime : Int) (samples : Nat → α) (t0 : Int)
    (os : List Obs) :
    cycleDeadlines (Worker.run config sysDblTime os (Worker.init config samples t0)).trace
      = (List.range (cycleDeadlines
            (Worker.run config sysDblTime os (Worker.init config samples t0)).trace).length).map
          (fun i => deadlineSum (Worker.timer config samples) t0 (i + 1)) := by
  obtain ⟨k, _, _, hd⟩ := DeadlineInv_run config sysDblTime (Worker.timer config samples) t0 os
    _ (DeadlineInv_init config samples t0)
  rw [hd]; simp

theorem steady_timer {α : Type} [LinearOrderedField α] [FloorRing α] [DoubleArith α]
    (samples : Nat → α) :
    (Worker.timer steadyConfig samples).NextDelay = (100, Worker.timer steadyConfig samples) := by
  have h : (Worker.timer steadyConfig samples).randomOffsetMs ≤ 0 := by
    simp [Worker.timer, StochasticTimer.StochasticTimer]
    decide
  rw [NextDelay_disabled _ h]
  rfl

theorem steady_forHead_zero : forHead steadyConfig 0 = .burstCheck 0 := by decide

theorem steady_forHead_one : forHead steadyConfig 1 = .loopCheck := by decide

theorem steady_burst : burstCount steadyConfig = 1 := by decide

theorem steady_button : steadyConfig.buttonIndex = 0 := by decide

theorem SteadyInv_step {α : Type} [LinearOrderedField α] [FloorRing α] [DoubleArith α]
    (sysDblTime : Int)
    (samples : Nat → α) (t0 : Int) (o : Obs) (w : WorkerState α) (hw : SteadyInv samples t0 w) :
    SteadyInv samples t0 (Worker.step steadyConfig sysDblTime o w) := by
  obtain ⟨ht, k, hk⟩ := hw
  rcases w with ⟨pc, timer, nw, tr⟩
  simp only at ht hk
  subst ht
  rcases hk with ⟨hpc, htr, hnw⟩ | ⟨hpc, htr, hnw⟩ | ⟨hpc, htr⟩
  · subst hpc htr hnw
    by_cases hs : o.stop = true
    · refine ⟨by simp [Worker.step, hs], k, Or.inr (Or.inr ?_)⟩
      simp [Worker.step, hs]
    · refine ⟨by simp [Worker.step, hs, steady_timer], k, Or.inr (Or.inl ?_)⟩
      simp only [Worker.step, hs, steady_timer]
      refine ⟨Or.inl rfl, ?_, ?_⟩
      · simp; ring
      · simp; ring
  · subst htr hnw
    rcases hpc with hpc | hpc | hpc
    · subst hpc
      by_cases hs : o.stop = true
      · refine ⟨by simp [Worker.step, hs], k, Or.inr (Or.inr ?_)⟩
        simp [Worker.step, hs]
      · refine ⟨by simp [Worker.step, hs], k, Or.inr (Or.inl ?_)⟩
        simp [Worker.step, hs, steady_forHead_zero]
    · subst hpc
      by_cases hs : o.stop = true
      · refine ⟨by simp [Worker.step, hs], k, Or.inr (Or.inr ?_)⟩
        simp [Worker.step, hs]
      · refine ⟨by simp [Worker.step, hs], k, Or.inr (Or.inl ?_)⟩
        simp [Worker.step, hs]
    · subst hpc
      refine ⟨by simp [Worker.step, steady_burst], k + 1, Or.inl ?_⟩
      simp only [Worker.step, steady_burst, sub_self, lt_self_iff_false, if_false, zero_add,
        steady_forHead_one, steady_button]
      refine ⟨trivial, ?_, ?_⟩
      · simp [steadyTrace]
      · push_cast; ring
  · subst hpc
    exact ⟨rfl, k, Or.inr (Or.inr ⟨rfl, htr⟩)⟩

theorem SteadyInv_run {α : Type} [LinearOrderedField α] [FloorRing α] [DoubleArith α]
    (sysDblTime : Int)
    (samples : Nat → α) (t0 : Int) (os : List Obs) (w : WorkerState α)
    (hw : SteadyInv samples t0 w) :
    SteadyInv samples t0 (Worker.run steadyConfig sysDblTime os w) := by
  induction os generalizing w with
  | nil => exact hw
  | cons o os ih => exact ih _ (SteadyInv_step sysDblTime samples t0 o w hw)

theorem SteadyInv_init {α : Type} [LinearOrderedField α] [FloorRing α] [DoubleArith α]
    (samples : Nat → α) (t0 : Int) : SteadyInv samples t0 (Worker.init steadyConfig samples t0) :=
  ⟨rfl, 0, Or.inl ⟨rfl, rfl, by simp [Worker.init]⟩⟩

theorem steady_cycle {α : Type} [LinearOrderedField α] [FloorRing α] [DoubleArith α]
    (sysDblTime : Int)
    (samples : Nat → α) (nw : Int) (tr : List Event) (n1 n2 n3 n4 : Int) :
    Worker.run steadyConfig sysDblTime
        [⟨false, n1⟩, ⟨false, n2⟩, ⟨false, n3⟩, ⟨false, n4⟩]
        (⟨.loopCheck, Worker.timer steadyConfig samples, nw, tr⟩ : WorkerState α)
      = ⟨.loopCheck, Worker.timer steadyConfig samples, nw + 100,
          tr ++ [.cycleWait (nw + 100), .click 0]⟩ := by
  simp [Worker.run, Worker.step, steady_timer, steady_forHead_zero, steady_burst,
    steady_forHead_one, steady_button]

theorem quietObs_succ (now : Nat → Int) (k : Nat) :
    quietObs now (k + 1) = quietObs now k ++
      [⟨false, now (4 * k)⟩, ⟨false, now (4 * k + 1)⟩, ⟨false, now (4 * k + 2)⟩,
       ⟨false, now (4 * k + 3)⟩] := by
  have e : 4 * (k + 1) = 4 * k + 1 + 1 + 1 + 1 := by ring
  simp [quietObs, e, List.range_succ]

theorem steady_quiet_run {α : Type} [LinearOrderedField α] [FloorRing α] [DoubleArith α]
    (sysDblTime : Int)
    (samples : Nat → α) (t0 : Int) (now : Nat → Int) (k : Nat) :
    Worker.run steadyConfig sysDblTime (quietObs now k) (Worker.init steadyConfig samples t0)
      = ⟨.loopCheck, Worker.timer steadyConfig samples, t0 + 100 * k, steadyTrace t0 k⟩ := by
  induction k with
  | zero => simp [quietObs, Worker.run, Worker.init, steadyTrace]
  | succ k ih =>
    rw [quietObs_succ, worker_run_append, ih, steady_cycle]
    have e2 : t0 + 100 * (k : Int) + 100 = t0 + 100 * ((k : Int) + 1) := by ring
    simp only [steadyTrace, e2]
    congr 1

theorem clickCount_append (a b : List Event) :
    clickCount (a ++ b) = clickCount a + clickCount b := by
  induction a with
  | nil => simp [clickCount]
  | cons e es ih =>
    cases e
    · simp [clickCount, ih]
    · simp [clickCount, ih]; omega
    · simp [clickCount, ih]

theorem clickCount_steadyTrace (t0 : Int) (k : Nat) : clickCount (steadyTrace t0 k) = k := by
  induction k with
  | zero => rfl
  | succ k ih => simp [steadyTrace, clickCount_append, clickCount, ih]

theorem delaySeq_steady {α : Type} [LinearOrderedField α] [FloorRing α] [DoubleArith α]
    (samples : Nat → α)
    (j : Nat) : delaySeq (Worker.timer steadyConfig samples) j = 100 := by
  have h : (Worker.timer steadyConfig samples).randomOffsetMs ≤ 0 := by
    simp [Worker.timer, StochasticTimer.StochasticTimer]
    decide
  rw [delaySeq, timerAfter_disabled _ h, steady_timer]

/-- C10: in every run of the worker started at `t0`, whatever the stop observations and
clock readings, the deadline of the `k`-th cycle wait is `t0` plus the sum of the first
`k` values returned by `NextDelay`. For the configuration `h = m = s = 0`, `ms = 100`,
offset `0`, `random = false`, `btn = 0`, `type = 0` the `k`-th deadline is `t0 + 100 * k`,
the events of a run are `k` complete cycles of one wait followed by one click of button
0, possibly followed by the wait of a cycle in progress or cancelled, and `k` rounds of
observations without a stop request produce exactly those `k` complete cycles. -/
theorem C10_virtual_deadlines {α : Type} [LinearOrderedField α] [FloorRing α] [DoubleArith α]
    (config : ClickerConfig) (sysDblTime : Int) (samples : Nat → α) (t0 : Int)
    (os : List Obs) (now : Nat → Int) (k : Nat) :
    cycleDeadlines (Worker.run config sysDblTime os (Worker.init config samples t0)).trace
      = (List.range (cycleDeadlines
            (Worker.run config sysDblTime os (Worker.init config samples t0)).trace).length).map
          (fun i => t0 + ∑ j in Finset.range (i + 1), delaySeq (Worker.timer config samples) j) ∧
    cycleDeadlines
        (Worker.run steadyConfig sysDblTime os (Worker.init steadyConfig samples t0)).trace
      = (List.range (cycleDeadlines (Worker.run steadyConfig sysDblTime os
            (Worker.init steadyConfig samples t0)).trace).length).map
          (fun i : Nat => t0 + 100 * ((i : Int) + 1)) ∧
    (∃ n : Nat,
      (Worker.run steadyConfig sysDblTime os (Worker.init steadyConfig samples t0)).trace
        = steadyTrace t0 n ∨
      (Worker.run steadyConfig sysDblTime os (Worker.init steadyConfig samples t0)).trace
        = steadyTrace t0 n ++ [.cycleWait (t0 + 100 * (n + 1))]) ∧
    (Worker.run steadyConfig sysDblTime (quietObs now k)
        (Worker.init steadyConfig samples t0)).trace = steadyTrace t0 k ∧
    clickCount (Worker.run steadyConfig sysDblTime (quietObs now k)
        (Worker.init steadyConfig samples t0)).trace = k := by
  refine ⟨?_, ?_, ?_, ?_, ?_⟩
  · exact cycleDeadlines_run config sysDblTime samples t0 os
  · have h := cycleDeadlines_run steadyConfig sysDblTime samples t0 os
    have e : (fun i : Nat => deadlineSum (Worker.timer steadyConfig samples) t0 (i + 1))
        = (fun i : Nat => t0 + 100 * ((i : Int) + 1)) := by
      funext i
      simp [deadlineSum, delaySeq_steady]
      ring
    rw [e] at h
    exact h
  · obtain ⟨_, n, hn⟩ := SteadyInv_run sysDblTime samples t0 os _ (SteadyInv_init samples t0)
    refine ⟨n, ?_⟩
    rcases hn with ⟨_, htr, _⟩ | ⟨_, htr, _⟩ | ⟨_, htr⟩
    · exact Or.inl htr
    · exact Or.inr htr
    · exact htr
  · rw [steady_quiet_run]
  · rw [steady_quiet_run]; exact clickCount_steadyTrace t0 k

/-! ## Properties of the interleaved run -/

theorem forHead_cases (config : ClickerConfig) (i : Int) :
    forHead config i = .burstCheck i ∨ forHead config i = .loopCheck := by
  unfold forHead; split_ifs
  · exact Or.inl rfl
  · exact Or.inr rfl

theorem worker_step_stopped {α : Type} [LinearOrderedField α] [FloorRing α] [DoubleArith α]
    (config : ClickerConfig) (sysDblTime : Int) (now : Int) (w : WorkerState α) :
    clickCount (Worker.step config sysDblTime ⟨true, now⟩ w).trace
        + pendingClick (Worker.step config sysDblTime ⟨true, now⟩ w).pc
      ≤ clickCount w.trace + pendingClick w.pc ∧
    exitRank (Worker.step config sysDblTime ⟨true, now⟩ w).pc ≤ exitRank w.pc - 1 := by
  rcases w with ⟨pc, timer, nw, tr⟩
  cases pc with
  | loopCheck => simp [Worker.step, pendingClick, exitRank]
  | cycleWait => simp [Worker.step, pendingClick, exitRank]
  | burstCheck i => simp [Worker.step, pendingClick, exitRank]
  | subWait i => simp [Worker.step, pendingClick, exitRank]
  | exited => simp [Worker.step, pendingClick, exitRank]
  | click i =>
    simp only [Worker.step]
    split_ifs with h
    · simp [clickCount_append, clickCount, pendingClick, exitRank]
    · rcases forHead_cases config (i + 1) with e | e <;>
        simp [e, clickCount_append, clickCount, pendingClick, exitRank]

theorem runState_step_stopped {α : Type} [LinearOrderedField α] [FloorRing α] [DoubleArith α]
    (config : ClickerConfig) (sysDblTime : Int) (s : RunState α) (m : Move)
    (hs : s.stopRequested = true) :
    (RunState.step config sysDblTime s m).stopRequested = true ∧
    clickCount (RunState.step config sysDblTime s m).worker.trace
        + pendingClick (RunState.step config sysDblTime s m).worker.pc
      ≤ clickCount s.worker.trace + pendingClick s.worker.pc ∧
    exitRank (RunState.step config sysDblTime s m).worker.pc
      ≤ exitRank s.worker.pc - moveCost m := by
  cases m with
  | stop => simp [RunState.step, hs, moveCost]
  | worker now =>
    have h := worker_step_stopped config sysDblTime now s.worker
    simp only [RunState.step, hs, moveCost]
    exact ⟨trivial, h.1, h.2⟩

theorem runState_run_stopped {α : Type} [LinearOrderedField α] [FloorRing α] [DoubleArith α]
    (config : ClickerConfig) (sysDblTime : Int) (ms : List Move) (s : RunState α)
    (hs : s.stopRequested = true) :
    (RunState.run config sysDblTime ms s).stopRequested = true ∧
    clickCount (RunState.run config sysDblTime ms s).worker.trace
        + pendingClick (RunState.run config sysDblTime ms s).worker.pc
      ≤ clickCount s.worker.trace + pendingClick s.worker.pc ∧
    exitRank (RunState.run config sysDblTime ms s).worker.pc
      ≤ exitRank s.worker.pc - workerMoves ms := by
  induction ms generalizing s with
  | nil => simp [RunState.run, workerMoves, hs]
  | cons m ms ih =>
    have h1 := runState_step_stopped config sysDblTime s m hs
    have h2 := ih (RunState.step config sysDblTime s m) h1.1
    have e : RunState.run config sysDblTime (m :: ms) s
        = RunState.run config sysDblTime ms (RunState.step config sysDblTime s m) := rfl
    rw [e]
    refine ⟨h2.1, le_trans h2.2.1 h1.2.1, ?_⟩
    have hc : workerMoves (m :: ms) = moveCost m + workerMoves ms := by
      cases m
      · simp [workerMoves, moveCost]
      · simp [workerMoves, moveCost]; omega
    rw [hc]
    have := h2.2.2
    have := h1.2.2
    omega

theorem runState_run_append {α : Type} [LinearOrderedField α] [FloorRing α] [DoubleArith α]
    (config : ClickerConfig) (sysDblTime : Int) (ms ms2 : List Move) (s : RunState α) :
    RunState.run config sysDblTime (ms ++ ms2) s
      = RunState.run config sysDblTime ms2 (RunState.run config sysDblTime ms s) := by
  simp [RunState.run, List.foldl_append]

theorem runState_run_flags {α : Type} [LinearOrderedField α] [FloorRing α] [DoubleArith α]
    (config : ClickerConfig) (sysDblTime : Int) (ms : List Move) (s : RunState α)
    (hs : s.stopRequested = true ∨ s.engine.running = true) :
    (RunState.run config sysDblTime ms s).stopRequested = true ∨
      (RunState.run config sysDblTime ms s).engine.running = true := by
  induction ms generalizing s with
  | nil => exact hs
  | cons m ms ih =>
    apply ih
    cases m with
    | stop =>
      left
      rcases hs with h | h <;> simp [RunState.step, h]
    | worker now => exact hs

theorem runState_run_engine {α : Type} [LinearOrderedField α] [FloorRing α] [DoubleArith α]
    (config : ClickerConfig) (sysDblTime : Int) (ms : List Move) (s : RunState α)
    (hs : (s.engine.running = true ∧ s.engine.stopSignals = 0 ∧ s.engine.notifies = 0) ∨
      (s.engine.running = false ∧ s.engine.stopSignals = 1 ∧ s.engine.notifies = 1)) :
    ((RunState.run config sysDblTime ms s).engine.running = true ∧
        (RunState.run config sysDblTime ms s).engine.stopSignals = 0 ∧
        (RunState.run config sysDblTime ms s).engine.notifies = 0) ∨
      ((RunState.run config sysDblTime ms s).engine.running = false ∧
        (RunState.run config sysDblTime ms s).engine.stopSignals = 1 ∧
        (RunState.run config sysDblTime ms s).engine.notifies = 1) := by
  induction ms generalizing s with
  | nil => exact hs
  | cons m ms ih =>
    apply ih
    cases m with
    | stop =>
      right
      rcases hs with ⟨h1, h2, h3⟩ | ⟨h1, h2, h3⟩ <;>
        simp [RunState.step, ClickerEngine.Stop, h1, h2, h3]
    | worker now => exact hs

theorem exitRank_le_two (pc : Pc) : exitRank pc ≤ 2 := by
  cases pc <;> simp [exitRank]

theorem exitRank_eq_zero {pc : Pc} (h : exitRank pc = 0) : pc = .exited := by
  cases pc <;> simp [exitRank] at h ⊢

theorem pendingClick_le_one (pc : Pc) : pendingClick pc ≤ 1 := by
  cases pc <;> simp [pendingClick]

/-- C9, as stated, fails: `Stop()` contains no join. In the 100 ms scenario, let the
worker pass the stop check of line 177 and then let the control thread run `Stop()` to
completion. `Stop()` has returned and `IsRunning()` is false, yet the worker has not
exited (it stands before `ClickSingle`) and no click has happened so far; its next
transition performs a `ClickSingle`. -/
theorem C9_counterexample :
    (RunState.run steadyConfig 500 [.worker 0, .worker 1, .worker 2, .stop]
        (RunState.init steadyConfig (fun _ => (0 : ℚ)) 0)).stopReturns = 1 ∧
    ClickerEngine.IsRunning (RunState.run steadyConfig 500
        [.worker 0, .worker 1, .worker 2, .stop]
        (RunState.init steadyConfig (fun _ => (0 : ℚ)) 0)).engine = false ∧
    (RunState.run steadyConfig 500 [.worker 0, .worker 1, .worker 2, .stop]
        (RunState.init steadyConfig (fun _ => (0 : ℚ)) 0)).worker.pc = .click 0 ∧
    (RunState.run steadyConfig 500 [.worker 0, .worker 1, .worker 2, .stop]
        (RunState.init steadyConfig (fun _ => (0 : ℚ)) 0)).worker.trace
      = [.cycleWait 100] ∧
    (RunState.run steadyConfig 500 [.worker 0, .worker 1, .worker 2, .stop, .worker 3]
        (RunState.init steadyConfig (fun _ => (0 : ℚ)) 0)).worker.trace
      = [.cycleWait 100, .click 0] := by
  simp [RunState.run, RunState.step, RunState.init, Worker.init, Worker.step, steady_timer,
    steady_forHead_zero, steady_forHead_one, steady_burst, steady_button,
    ClickerEngine.Start, ClickerEngine.Stop, ClickerEngine.init, ClickerEngine.IsRunning]

/-- C9, amended: `Stop()` requests the stop, notifies and clears `running`, and returns
without joining the worker, whose state it leaves as it is. For every schedule `pre` of
worker transitions and `Stop()` calls before a `Stop()` call and every schedule `post`
after it: once that `Stop()` has returned the engine is idle, the stop is requested,
exactly one `request_stop()` and one `notify_all()` have been issued in the run, the worker
makes at most one further `ClickSingle` call, and it has returned once it has made two
further transitions. -/
theorem C9_stop_quiesces {α : Type} [LinearOrderedField α] [FloorRing α] [DoubleArith α]
    (config : ClickerConfig) (sysDblTime : Int) (samples : Nat → α) (t0 : Int)
    (pre post : List Move) :
    ClickerEngine.IsRunning (RunState.run config sysDblTime (pre ++ [.stop])
        (RunState.init config samples t0)).engine = false ∧
    (RunState.run config sysDblTime (pre ++ [.stop])
        (RunState.init config samples t0)).stopRequested = true ∧
    (RunState.run config sysDblTime (pre ++ [.stop])
        (RunState.init config samples t0)).engine.stopSignals = 1 ∧
    (RunState.run config sysDblTime (pre ++ [.stop])
        (RunState.init config samples t0)).engine.notifies = 1 ∧
    (RunState.run config sysDblTime (pre ++ [.stop]) (RunState.init config samples t0)).worker
      = (RunState.run config sysDblTime pre (RunState.init config samples t0)).worker ∧
    clickCount (RunState.run config sysDblTime (pre ++ [.stop] ++ post)
        (RunState.init config samples t0)).worker.trace
      ≤ clickCount (RunState.run config sysDblTime (pre ++ [.stop])
        (RunState.init config samples t0)).worker.trace + 1 ∧
    (2 ≤ workerMoves post →
      (RunState.run config sysDblTime (pre ++ [.stop] ++ post)
        (RunState.init config samples t0)).worker.pc = .exited) := by
  have hpre := runState_run_flags config sysDblTime pre (RunState.init config samples t0)
    (Or.inr (by simp [RunState.init, ClickerEngine.Start, ClickerEngine.init]))
  have heng := runState_run_engine config sysDblTime (pre ++ [Move.stop])
    (RunState.init config samples t0)
    (Or.inl (by simp [RunState.init, ClickerEngine.Start, ClickerEngine.init]))
  have e1 : RunState.run config sysDblTime (pre ++ [.stop]) (RunState.init config samples t0)
      = RunState.step config sysDblTime
          (RunState.run config sysDblTime pre (RunState.init config samples t0)) .stop := by
    rw [runState_run_append]; rfl
  have hreq : (RunState.run config sysDblTime (pre ++ [.stop])
      (RunState.init config samples t0)).stopRequested = true := by
    rw [e1]
    rcases hpre with h | h <;> simp [RunState.step, h]
  have hidle : ClickerEngine.IsRunning (RunState.run config sysDblTime (pre ++ [.stop])
      (RunState.init config samples t0)).engine = false := by
    rw [e1]
    simp only [RunState.step, ClickerEngine.IsRunning, ClickerEngine.Stop]
    split_ifs with h
    · simpa using h
    · rfl
  have hcount : (RunState.run config sysDblTime (pre ++ [.stop])
        (RunState.init config samples t0)).engine.stopSignals = 1 ∧
      (RunState.run config sysDblTime (pre ++ [.stop])
        (RunState.init config samples t0)).engine.notifies = 1 := by
    rcases heng with ⟨h1, _, _⟩ | ⟨_, h2, h3⟩
    · have h0 : (RunState.run config sysDblTime (pre ++ [.stop])
          (RunState.init config samples t0)).engine.running = false := hidle
      rw [h0] at h1
      exact absurd h1 (by decide)
    · exact ⟨h2, h3⟩
  have hpost := runState_run_stopped config sysDblTime post _ hreq
  refine ⟨hidle, hreq, hcount.1, hcount.2, ?_, ?_, ?_⟩
  · rw [e1]; rfl
  · rw [runState_run_append config sysDblTime (pre ++ [Move.stop]) post]
    have h1 := hpost.2.1
    have h2 := pendingClick_le_one (RunState.run config sysDblTime (pre ++ [.stop])
      (RunState.init config samples t0)).worker.pc
    omega
  · intro h2
    rw [runState_run_append config sysDblTime (pre ++ [Move.stop]) post]
    apply exitRank_eq_zero
    have h1 := hpost.2.2
    have h3 := exitRank_le_two (RunState.run config sysDblTime (pre ++ [.stop])
      (RunState.init config samples t0)).worker.pc
    omega

/-! ## Bursts and cancellation in the worker loop -/

theorem calmObs_add (now : Nat → Int) (a b : Nat) :
    calmObs now (a + b) = calmObs now a ++ calmObs (fun i => now (a + i)) b := by
  simp [calmObs, List.range_add, List.map_append, List.map_map, Function.comp_def]

theorem cycle_single {α : Type} [LinearOrderedField α] [FloorRing α] [DoubleArith α]
    (config : ClickerConfig)
    (hc : burstCount config = 1) (sysDblTime : Int) (now : Nat → Int)
    (T : StochasticTimer α) (nw : Int) (tr : List Event) :
    Worker.run config sysDblTime (calmObs now 4) (⟨.loopCheck, T, nw, tr⟩ : WorkerState α)
      = ⟨.loopCheck, T.NextDelay.2, nw + T.NextDelay.1,
          tr ++ [.cycleWait (nw + T.NextDelay.1), .click config.buttonIndex]⟩ := by
  have e : calmObs now 4 = [⟨false, now 0⟩, ⟨false, now 1⟩, ⟨false, now 2⟩, ⟨false, now 3⟩] :=
    rfl
  simp [e, Worker.run, Worker.step, forHead, hc]

theorem cycle_double {α : Type} [LinearOrderedField α] [FloorRing α] [DoubleArith α]
    (config : ClickerConfig)
    (hc : burstCount config = 2) (sysDblTime : Int) (now : Nat → Int)
    (T : StochasticTimer α) (nw : Int) (tr : List Event) :
    Worker.run config sysDblTime (calmObs now 7) (⟨.loopCheck, T, nw, tr⟩ : WorkerState α)
      = ⟨.loopCheck, T.NextDelay.2, nw + T.NextDelay.1,
          tr ++ [.cycleWait (nw + T.NextDelay.1), .click config.buttonIndex,
            .subWait (now 3 + subClickDelay sysDblTime), .click config.buttonIndex]⟩ := by
  have e : calmObs now 7 = [⟨false, now 0⟩, ⟨false, now 1⟩, ⟨false, now 2⟩, ⟨false, now 3⟩,
      ⟨false, now 4⟩, ⟨false, now 5⟩, ⟨false, now 6⟩] := rfl
  simp [e, Worker.run, Worker.step, forHead, hc]

theorem cycle_triple {α : Type} [LinearOrderedField α] [FloorRing α] [DoubleArith α]
    (config : ClickerConfig)
    (hc : burstCount config = 3) (sysDblTime : Int) (now : Nat → Int)
    (T : StochasticTimer α) (nw : Int) (tr : List Event) :
    Worker.run config sysDblTime (calmObs now 10) (⟨.loopCheck, T, nw, tr⟩ : WorkerState α)
      = ⟨.loopCheck, T.NextDelay.2, nw + T.NextDelay.1,
          tr ++ [.cycleWait (nw + T.NextDelay.1), .click config.buttonIndex,
            .subWait (now 3 + subClickDelay sysDblTime), .click config.buttonIndex,
            .subWait (now 6 + subClickDelay sysDblTime), .click config.buttonIndex]⟩ := by
  have e : calmObs now 10 = [⟨false, now 0⟩, ⟨false, now 1⟩, ⟨false, now 2⟩, ⟨false, now 3⟩,
      ⟨false, now 4⟩, ⟨false, now 5⟩, ⟨false, now 6⟩, ⟨false, now 7⟩, ⟨false, now 8⟩,
      ⟨false, now 9⟩] := rfl
  simp [e, Worker.run, Worker.step, forHead, hc]

theorem burstCount_cases (config : ClickerConfig) :
    burstCount config = 1 ∨ burstCount config = 2 ∨ burstCount config = 3 := by
  unfold burstCount
  split_ifs
  · exact Or.inl rfl
  · exact Or.inr (Or.inl rfl)
  · exact Or.inr (Or.inr rfl)

theorem burstCount_constructed (h m s ms offset : Int) (random : Bool) (btn type : Int) :
    burstCount (ClickerConfig.ClickerConfig h m s ms offset random btn type)
      = clamp type 0 2 + 1 := by
  have hr := clamp_int_range type 0 2 (by decide)
  simp only [burstCount, ClickerConfig.ClickerConfig]
  split_ifs <;> omega

theorem burstSize_range (type : Int) : 1 ≤ burstSize type ∧ burstSize type ≤ 3 := by
  have hr := clamp_int_range type 0 2 (by decide)
  unfold burstSize
  omega

theorem burstSize_cast (type : Int) : ((burstSize type : Nat) : Int) = clamp type 0 2 + 1 := by
  have hr := clamp_int_range type 0 2 (by decide)
  unfold burstSize
  omega

theorem subClickDelay_eq (sysDblTime : Int) :
    subClickDelay sysDblTime = if sysDblTime > 0 then sysDblTime / 5 else 50 := by
  unfold subClickDelay
  split_ifs with h
  · exact Int.tdiv_eq_ediv (le_of_lt h) (by decide)
  · rfl

theorem cycle_calm {α : Type} [LinearOrderedField α] [FloorRing α] [DoubleArith α]
    (config : ClickerConfig)
    (N : Nat) (hN : burstCount config = (N : Int)) (sysDblTime : Int) (now : Nat → Int)
    (T : StochasticTimer α) (nw : Int) (tr : List Event) :
    Worker.run config sysDblTime (calmObs now (3 * N + 1))
        (⟨.loopCheck, T, nw, tr⟩ : WorkerState α)
      = ⟨.loopCheck, T.NextDelay.2, nw + T.NextDelay.1,
          tr ++ .cycleWait (nw + T.NextDelay.1) ::
            burstEvents config.buttonIndex (subClickDelay sysDblTime) (burstReadings now N)⟩ := by
  rcases burstCount_cases config with hc | hc | hc
  · have e : N = 1 := by omega
    subst e
    rw [cycle_single config hc]
    simp [burstEvents, burstReadings]
  · have e : N = 2 := by omega
    subst e
    rw [cycle_double config hc]
    simp [burstEvents, burstReadings]
  · have e : N = 3 := by omega
    subst e
    rw [cycle_triple config hc]
    simp [burstEvents, burstReadings, List.range_succ]

theorem clickButtons_append (a b : List Event) :
    clickButtons (a ++ b) = clickButtons a ++ clickButtons b := by
  induction a with
  | nil => rfl
  | cons e es ih => cases e <;> simp [clickButtons, ih]

theorem subWaitDeadlines_append (a b : List Event) :
    subWaitDeadlines (a ++ b) = subWaitDeadlines a ++ subWaitDeadlines b := by
  induction a with
  | nil => rfl
  | cons e es ih => cases e <;> simp [subWaitDeadlines, ih]

theorem clickButtons_burstEvents (b d : Int) (ns : List Int) :
    clickButtons (burstEvents b d ns) = List.replicate (ns.length + 1) b := by
  induction ns with
  | nil => rfl
  | cons n ns ih => simp [burstEvents, clickButtons, ih, List.replicate_succ]

theorem subWaitDeadlines_burstEvents (b d : Int) (ns : List Int) :
    subWaitDeadlines (burstEvents b d ns) = ns.map (fun n => n + d) := by
  induction ns with
  | nil => rfl
  | cons n ns ih => simp [burstEvents, subWaitDeadlines, ih]

theorem cycleDeadlines_burstEvents (b d : Int) (ns : List Int) :
    cycleDeadlines (burstEvents b d ns) = [] := by
  induction ns with
  | nil => rfl
  | cons n ns ih => simp [burstEvents, cycleDeadlines, ih]

theorem burstReadings_length (now : Nat → Int) (n : Nat) :
    (burstReadings now n).length = n - 1 := by
  simp [burstReadings]

theorem calm_cycles {α : Type} [LinearOrderedField α] [FloorRing α] [DoubleArith α]
    (config : ClickerConfig)
    (N : Nat) (hN : burstCount config = (N : Int)) (hN1 : 1 ≤ N) (sysDblTime : Int)
    (now : Nat → Int) (T : StochasticTimer α) (nw : Int) (k : Nat) :
    ∃ (T2 : StochasticTimer α) (nw2 : Int) (tr2 : List Event),
      Worker.run config sysDblTime (calmObs now (k * (3 * N + 1)))
          (⟨.loopCheck, T, nw, []⟩ : WorkerState α) = ⟨.loopCheck, T2, nw2, tr2⟩ ∧
      clickButtons tr2 = List.replicate (k * N) config.buttonIndex ∧
      (subWaitDeadlines tr2).length = k * (N - 1) ∧
      (cycleDeadlines tr2).length = k := by
  induction k with
  | zero =>
    exact ⟨T, nw, [], by simp [calmObs, Worker.run], by simp [clickButtons],
      by simp [subWaitDeadlines], by simp [cycleDeadlines]⟩
  | succ k ih =>
    obtain ⟨T2, nw2, tr2, hrun, hcl, hsw, hcy⟩ := ih
    have e : (k + 1) * (3 * N + 1) = k * (3 * N + 1) + (3 * N + 1) := by ring
    refine ⟨T2.NextDelay.2, nw2 + T2.NextDelay.1,
      tr2 ++ .cycleWait (nw2 + T2.NextDelay.1) ::
        burstEvents config.buttonIndex (subClickDelay sysDblTime)
          (burstReadings (fun i => now (k * (3 * N + 1) + i)) N), ?_, ?_, ?_, ?_⟩
    · rw [e, calmObs_add, worker_run_append, hrun, cycle_calm config N hN]
    · have e2 : (k + 1) * N = k * N + (N - 1 + 1) := by
        have : N - 1 + 1 = N := by omega
        rw [this]; ring
      rw [clickButtons_append, hcl, e2, List.replicate_add]
      simp [clickButtons, clickButtons_burstEvents, burstReadings_length]
    · rw [subWaitDeadlines_append, List.length_append, hsw]
      simp [subWaitDeadlines, subWaitDeadlines_burstEvents, burstReadings_length]
      ring
    · rw [cycleDeadlines_append, List.length_append, hcy]
      simp [cycleDeadlines, cycleDeadlines_burstEvents]

/-- C11: for every raw `btn` and `type`, with `N = clamp(type, 0, 2) + 1` in `{1, 2, 3}`: a
cycle in which no stop request is observed goes from the loop condition back to the loop
condition and produces, after its cycle wait, exactly `N` clicks of button
`clamp(btn, 0, 2)` in sequence with exactly `N - 1` sub-waits, one after each click but the
last, each with deadline `now + subClickDelay` where `subClickDelay` is `sysDblTime / 5`
when `sysDblTime > 0` and `50` otherwise. The same holds for `k` such cycles from the start
of a run. With `type = 2` and `btn = 0` the cycle produces exactly three clicks of
button 0. -/
theorem C11_burst_per_cycle {α : Type} [LinearOrderedField α] [FloorRing α] [DoubleArith α]
    (h m s ms offset : Int) (random : Bool) (btn type : Int) (sysDblTime : Int)
    (now : Nat → Int) (T : StochasticTimer α) (nw : Int) (tr : List Event)
    (samples : Nat → α) (t0 : Int) (k : Nat) :
    (1 ≤ burstSize type ∧ burstSize type ≤ 3) ∧
    burstCount (ClickerConfig.ClickerConfig h m s ms offset random btn type)
      = clamp type 0 2 + 1 ∧
    Worker.run (ClickerConfig.ClickerConfig h m s ms offset random btn type) sysDblTime
        (calmObs now (3 * burstSize type + 1)) (⟨.loopCheck, T, nw, tr⟩ : WorkerState α)
      = ⟨.loopCheck, T.NextDelay.2, nw + T.NextDelay.1,
          tr ++ .cycleWait (nw + T.NextDelay.1) ::
            burstEvents (clamp btn 0 2) (subClickDelay sysDblTime)
              (burstReadings now (burstSize type))⟩ ∧
    clickButtons (burstEvents (clamp btn 0 2) (subClickDelay sysDblTime)
        (burstReadings now (burstSize type)))
      = List.replicate (burstSize type) (clamp btn 0 2) ∧
    subWaitDeadlines (burstEvents (clamp btn 0 2) (subClickDelay sysDblTime)
        (burstReadings now (burstSize type)))
      = (List.range (burstSize type - 1)).map
          (fun i => now (3 * i + 3) + (if sysDblTime > 0 then sysDblTime / 5 else 50)) ∧
    ((Worker.run (ClickerConfig.ClickerConfig h m s ms offset random btn type) sysDblTime
        (calmObs now (k * (3 * burstSize type + 1)))
        (Worker.init (ClickerConfig.ClickerConfig h m s ms offset random btn type)
          samples t0)).pc = .loopCheck ∧
     clickButtons (Worker.run (ClickerConfig.ClickerConfig h m s ms offset random btn type)
        sysDblTime (calmObs now (k * (3 * burstSize type + 1)))
        (Worker.init (ClickerConfig.ClickerConfig h m s ms offset random btn type)
          samples t0)).trace = List.replicate (k * burstSize type) (clamp btn 0 2) ∧
     (subWaitDeadlines (Worker.run
        (ClickerConfig.ClickerConfig h m s ms offset random btn type)
        sysDblTime (calmObs now (k * (3 * burstSize type + 1)))
        (Worker.init (ClickerConfig.ClickerConfig h m s ms offset random btn type)
          samples t0)).trace).length = k * (burstSize type - 1) ∧
     (cycleDeadlines (Worker.run
        (ClickerConfig.ClickerConfig h m s ms offset random btn type)
        sysDblTime (calmObs now (k * (3 * burstSize type + 1)))
        (Worker.init (ClickerConfig.ClickerConfig h m s ms offset random btn type)
          samples t0)).trace).length = k) ∧
    Worker.run (ClickerConfig.ClickerConfig h m s ms offset random 0 2) sysDblTime
        (calmObs now 10) (⟨.loopCheck, T, nw, tr⟩ : WorkerState α)
      = ⟨.loopCheck, T.NextDelay.2, nw + T.NextDelay.1,
          tr ++ [.cycleWait (nw + T.NextDelay.1), .click 0,
            .subWait (now 3 + subClickDelay sysDblTime), .click 0,
            .subWait (now 6 + subClickDelay sysDblTime), .click 0]⟩ := by
  have hN : burstCount (ClickerConfig.ClickerConfig h m s ms offset random btn type)
      = ((burstSize type : Nat) : Int) := by
    rw [burstCount_constructed, burstSize_cast]
  have hr := burstSize_range type
  refine ⟨hr, burstCount_constructed h m s ms offset random btn type, ?_, ?_, ?_, ?_, ?_⟩
  · exact cycle_calm _ (burstSize type) hN sysDblTime now T nw tr
  · rw [clickButtons_burstEvents, burstReadings_length]
    congr 1
    omega
  · rw [subWaitDeadlines_burstEvents, ← subClickDelay_eq]
    simp [burstReadings, List.map_map, Function.comp_def]
  · obtain ⟨T2, nw2, tr2, hrun, hcl, hsw, hcy⟩ := calm_cycles
      (ClickerConfig.ClickerConfig h m s ms offset random btn type) (burstSize type) hN hr.1
      sysDblTime now (Worker.timer (ClickerConfig.ClickerConfig h m s ms offset random btn type)
        samples) t0 k
    have hinit : Worker.init (ClickerConfig.ClickerConfig h m s ms offset random btn type)
        samples t0 = ⟨.loopCheck, Worker.timer
          (ClickerConfig.ClickerConfig h m s ms offset random btn type) samples, t0, []⟩ := rfl
    rw [hinit, hrun]
    exact ⟨rfl, hcl, hsw, hcy⟩
  · have hc : burstCount (ClickerConfig.ClickerConfig h m s ms offset random 0 2) = 3 := by
      rw [burstCount_constructed]; decide
    exact cycle_triple _ hc sysDblTime now T nw tr

theorem worker_run_cons {α : Type} [LinearOrderedField α] [FloorRing α] [DoubleArith α]
    (config : ClickerConfig) (sysDblTime : Int) (o : Obs) (os : List Obs) (w : WorkerState α) :
    Worker.run config sysDblTime (o :: os) w
      = Worker.run config sysDblTime os (Worker.step config sysDblTime o w) := rfl

theorem worker_run_exited {α : Type} [LinearOrderedField α] [FloorRing α] [DoubleArith α]
    (config : ClickerConfig) (sysDblTime : Int) (os : List Obs) (T : StochasticTimer α)
    (nw : Int) (tr : List Event) :
    Worker.run config sysDblTime os (⟨.exited, T, nw, tr⟩ : WorkerState α)
      = ⟨.exited, T, nw, tr⟩ := by
  induction os with
  | nil => rfl
  | cons o os ih =>
    rw [worker_run_cons]
    have e : Worker.step config sysDblTime o (⟨.exited, T, nw, tr⟩ : WorkerState α)
        = ⟨.exited, T, nw, tr⟩ := rfl
    rw [e, ih]

/-- C12: a worker that has returned stays as it is, and a stop request observed at any of
the four check points (the loop condition, the cycle wait, the check before a click, a
sub-wait) makes the worker return at once with its trace unchanged, whatever is observed
afterwards: no further click occurs. Hence a stop request observed in the cycle wait leaves
the cycle with its wait and no click, and in a triple burst (`type = 2`) a stop request
observed in the sub-wait after the first click leaves the cycle with exactly one click. -/
theorem C12_cancellation_stops {α : Type} [LinearOrderedField α] [FloorRing α] [DoubleArith α]
    (config : ClickerConfig) (sysDblTime : Int) (T : StochasticTimer α) (nw : Int)
    (tr : List Event) (i : Int) (n n0 n1 n2 n3 n4 : Int) (b3 : Bool) (os : List Obs)
    (h m s ms offset : Int) (random : Bool) (btn : Int) :
    Worker.run config sysDblTime os (⟨.exited, T, nw, tr⟩ : WorkerState α)
      = ⟨.exited, T, nw, tr⟩ ∧
    Worker.run config sysDblTime (⟨true, n⟩ :: os) (⟨.loopCheck, T, nw, tr⟩ : WorkerState α)
      = ⟨.exited, T, nw, tr⟩ ∧
    Worker.run config sysDblTime (⟨true, n⟩ :: os) (⟨.cycleWait, T, nw, tr⟩ : WorkerState α)
      = ⟨.exited, T, nw, tr⟩ ∧
    Worker.run config sysDblTime (⟨true, n⟩ :: os) (⟨.burstCheck i, T, nw, tr⟩ : WorkerState α)
      = ⟨.exited, T, nw, tr⟩ ∧
    Worker.run config sysDblTime (⟨true, n⟩ :: os) (⟨.subWait i, T, nw, tr⟩ : WorkerState α)
      = ⟨.exited, T, nw, tr⟩ ∧
    (Worker.run config sysDblTime (⟨false, n0⟩ :: ⟨true, n1⟩ :: os)
        (⟨.loopCheck, T, nw, tr⟩ : WorkerState α)
      = ⟨.exited, T.NextDelay.2, nw + T.NextDelay.1,
          tr ++ [.cycleWait (nw + T.NextDelay.1)]⟩ ∧
     clickCount (Worker.run config sysDblTime (⟨false, n0⟩ :: ⟨true, n1⟩ :: os)
        (⟨.loopCheck, T, nw, tr⟩ : WorkerState α)).trace = clickCount tr) ∧
    (Worker.run (ClickerConfig.ClickerConfig h m s ms offset random btn 2) sysDblTime
        (⟨false, n0⟩ :: ⟨false, n1⟩ :: ⟨false, n2⟩ :: ⟨b3, n3⟩ :: ⟨true, n4⟩ :: os)
        (⟨.loopCheck, T, nw, tr⟩ : WorkerState α)
      = ⟨.exited, T.NextDelay.2, nw + T.NextDelay.1,
          tr ++ [.cycleWait (nw + T.NextDelay.1), .click (clamp btn 0 2),
            .subWait (n3 + subClickDelay sysDblTime)]⟩ ∧
     clickCount (Worker.run (ClickerConfig.ClickerConfig h m s ms offset random btn 2)
        sysDblTime
        (⟨false, n0⟩ :: ⟨false, n1⟩ :: ⟨false, n2⟩ :: ⟨b3, n3⟩ :: ⟨true, n4⟩ :: os)
        (⟨.loopCheck, T, nw, tr⟩ : WorkerState α)).trace = clickCount tr + 1) := by
  have hx := worker_run_exited config sysDblTime os T nw tr
  have hc : burstCount (ClickerConfig.ClickerConfig h m s ms offset random btn 2) = 3 := by
    rw [burstCount_constructed]; decide
  have hb : (ClickerConfig.ClickerConfig h m s ms offset random btn 2).buttonIndex
      = clamp btn 0 2 := rfl
  have e1 : Worker.run config sysDblTime (⟨false, n0⟩ :: ⟨true, n1⟩ :: os)
      (⟨.loopCheck, T, nw, tr⟩ : WorkerState α)
      = ⟨.exited, T.NextDelay.2, nw + T.NextDelay.1,
          tr ++ [.cycleWait (nw + T.NextDelay.1)]⟩ := by
    simp [worker_run_cons, Worker.step, worker_run_exited]
  have e2 : Worker.run (ClickerConfig.ClickerConfig h m s ms offset random btn 2) sysDblTime
      (⟨false, n0⟩ :: ⟨false, n1⟩ :: ⟨false, n2⟩ :: ⟨b3, n3⟩ :: ⟨true, n4⟩ :: os)
      (⟨.loopCheck, T, nw, tr⟩ : WorkerState α)
      = ⟨.exited, T.NextDelay.2, nw + T.NextDelay.1,
          tr ++ [.cycleWait (nw + T.NextDelay.1), .click (clamp btn 0 2),
            .subWait (n3 + subClickDelay sysDblTime)]⟩ := by
    simp [worker_run_cons, Worker.step, worker_run_exited, forHead, hc, hb]
  refine ⟨hx, ?_, ?_, ?_, ?_, ⟨e1, ?_⟩, ⟨e2, ?_⟩⟩
  · simp [worker_run_cons, Worker.step, worker_run_exited]
  · simp [worker_run_cons, Worker.step, worker_run_exited]
  · simp [worker_run_cons, Worker.step, worker_run_exited]
  · simp [worker_run_cons, Worker.step, worker_run_exited]
  · rw [e1]; simp [clickCount_append, clickCount]
  · rw [e2]; simp [clickCount_append, clickCount]

end KishiClicker
